import Mathlib

/-!
# Verification of the payments-summary ledger normalizer and aggregator

This file embeds the data-cleaning and reporting core of `src/app.py`
(`clean_payments_data`, the add-transaction validation, the summary totals of
`generate_html_summary`, and the client-expense summary) as executable Lean
definitions, and proves or refutes the specification's claims about them.

Conventions of the embedding:
* A raw CSV/DataFrame cell is an `Option String`; `none` stands for a missing
  column or a NaN cell (pandas `astype(str)` turns those into the literal text
  `"nan"`, which the source immediately replaces by the empty string).
* Amounts are rationals (`ℚ`).  `pd.to_numeric(..., errors='coerce')` is
  modelled by a decimal-literal parser (optional sign, digits, one optional
  dot); `fillna(0.0)` by `Option.getD 0`.
* Dates are modelled by a `PDate` record; `pd.to_datetime(..., errors='coerce')`
  is modelled by an ISO `YYYY-MM-DD` parser (the only format the app itself
  ever writes); an unparseable date is `none` (NaT).
* Python `str.strip()` / `str.lower()` are modelled by `pyStrip` / `pyLower`.
* The spec renames the cheque-clearance enumeration: spec `issued`,
  `in_clearing`, `bounced`, `cleared` are the source's `"received/given"`,
  `"processing"`, `"bounced"`, `"processing done"`; in particular the spec's
  default member `in_clearing` is the source literal `"processing"`
  (`src/app.py` line 105).
-/

namespace Payments

/-- Python `str.strip()` whitespace class (space, tab, newline, carriage
return, vertical tab, form feed). -/
def isPySpace (c : Char) : Bool :=
  c == ' ' || c == '\t' || c == '\n' || c == '\r' || c == '\x0B' || c == '\x0C'

/-- Strip leading and trailing whitespace from a character list
(Python `str.strip()`). -/
def stripChars (cs : List Char) : List Char :=
  ((cs.dropWhile isPySpace).reverse.dropWhile isPySpace).reverse

/-- Python `str.strip()` on strings. -/
def pyStrip (s : String) : String := ⟨stripChars s.data⟩

/-- Python `str.lower()` (ASCII case folding suffices for this app's data). -/
def pyLower (s : String) : String := ⟨s.data.map Char.toLower⟩

/-- `valid_cheque_statuses_lower` (src/app.py line 65).  In the spec's renamed
vocabulary these are `issued`, `in_clearing`, `bounced`, `cleared`. -/
def valid_cheque_statuses_lower : List String :=
  ["received/given", "processing", "bounced", "processing done"]

/-- `valid_transaction_statuses_lower` (src/app.py line 66): the settlement
statuses. -/
def valid_transaction_statuses_lower : List String :=
  ["completed", "pending"]

/-! ## Decimal digits -/

/-- The decimal digit character for `n % 10`-sized numbers (used by the
number and date printers). -/
def digitChar (n : Nat) : Char :=
  match n with
  | 0 => '0' | 1 => '1' | 2 => '2' | 3 => '3' | 4 => '4'
  | 5 => '5' | 6 => '6' | 7 => '7' | 8 => '8' | _ => '9'

/-- Is `c` an ASCII decimal digit? -/
def isDigitChar (c : Char) : Bool := '0' ≤ c && c ≤ '9'

/-- Numeric value of a digit character. -/
def digitToNat (c : Char) : Nat := c.toNat - 48

/-- Value of a most-significant-digit-first digit list. -/
def digitsVal (cs : List Char) : Nat :=
  cs.foldl (fun a c => 10 * a + digitToNat c) 0

/-- Digit-list worker, structurally recursive on a fuel bound so that it
evaluates inside the kernel; `fuel > n` always suffices since the argument
shrinks by a factor of ten each step. -/
def natToDigitsRevAux : Nat → Nat → List Char
  | 0, _ => []
  | fuel + 1, n =>
    if n < 10 then [digitChar n]
    else digitChar (n % 10) :: natToDigitsRevAux fuel (n / 10)

/-- Decimal digits of `n`, least significant first. -/
def natToDigitsRev (n : Nat) : List Char := natToDigitsRevAux (n + 1) n

/-- Decimal digits of `n`, most significant first. -/
def natToDigits (n : Nat) : List Char := (natToDigitsRev n).reverse

/-- Left-pad a digit list with `'0'` to length `k`. -/
def padZeros (k : Nat) (cs : List Char) : List Char :=
  List.replicate (k - cs.length) '0' ++ cs

/-! ### Digit lemmas -/

theorem digitToNat_digitChar {n : Nat} (h : n < 10) : digitToNat (digitChar n) = n := by
  interval_cases n <;> rfl

theorem isDigitChar_digitChar {n : Nat} (h : n < 10) : isDigitChar (digitChar n) = true := by
  interval_cases n <;> rfl

/-- Generalized correctness of `digitsVal` as a `foldl`. -/
theorem digitsVal_foldl (cs : List Char) (a : Nat) :
    cs.foldl (fun a c => 10 * a + digitToNat c) a =
      a * 10 ^ cs.length + digitsVal cs := by
  induction cs generalizing a with
  | nil => simp [digitsVal]
  | cons c t ih =>
    simp only [List.foldl_cons, digitsVal, List.length_cons]
    rw [ih (10 * a + digitToNat c), ih (10 * 0 + digitToNat c)]
    ring

theorem digitsVal_cons (c : Char) (t : List Char) :
    digitsVal (c :: t) = digitToNat c * 10 ^ t.length + digitsVal t := by
  simpa [digitsVal] using digitsVal_foldl t (digitToNat c)

theorem digitsVal_append (a b : List Char) :
    digitsVal (a ++ b) = digitsVal a * 10 ^ b.length + digitsVal b := by
  simpa [digitsVal] using digitsVal_foldl b (digitsVal a)

theorem digitsVal_replicate_zero (k : Nat) :
    digitsVal (List.replicate k '0') = 0 := by
  induction k with
  | zero => rfl
  | succ n ih =>
    rw [List.replicate_succ, digitsVal_cons, ih]
    have h0 : digitToNat '0' = 0 := by decide
    simp [h0]

theorem digitsVal_padZeros (k : Nat) (cs : List Char) :
    digitsVal (padZeros k cs) = digitsVal cs := by
  rw [padZeros, digitsVal_append, digitsVal_replicate_zero]; ring

theorem natToDigitsRevAux_correct :
    ∀ (fuel n : Nat), n < fuel → digitsVal (natToDigitsRevAux fuel n).reverse = n := by
  intro fuel
  induction fuel with
  | zero => intro n hn; omega
  | succ f ih =>
    intro n hn
    rw [natToDigitsRevAux]
    split
    · next h =>
      simp [digitsVal_cons, digitsVal, digitToNat_digitChar h]
    · next h =>
      rw [List.reverse_cons, digitsVal_append]
      have hdiv : n / 10 < n := Nat.div_lt_self (by omega) (by omega)
      rw [ih (n / 10) (by omega)]
      simp [digitsVal_cons, digitsVal, digitToNat_digitChar (Nat.mod_lt n (by omega))]
      omega

theorem natToDigitsRev_correct (n : Nat) :
    digitsVal (natToDigitsRev n).reverse = n :=
  natToDigitsRevAux_correct (n + 1) n (by omega)

theorem digitsVal_natToDigits (n : Nat) : digitsVal (natToDigits n) = n :=
  natToDigitsRev_correct n

theorem natToDigitsRevAux_all_digits :
    ∀ (fuel n : Nat), ∀ c ∈ natToDigitsRevAux fuel n, isDigitChar c = true := by
  intro fuel
  induction fuel with
  | zero => intro n c hc; simp [natToDigitsRevAux] at hc
  | succ f ih =>
    intro n c hc
    rw [natToDigitsRevAux] at hc
    split at hc
    · next h =>
      simp only [List.mem_singleton] at hc
      subst hc
      exact isDigitChar_digitChar h
    · next h =>
      simp only [List.mem_cons] at hc
      rcases hc with hc | hc
      · subst hc
        exact isDigitChar_digitChar (Nat.mod_lt n (by omega))
      · exact ih (n / 10) c hc

theorem natToDigits_all_digits (n : Nat) :
    ∀ c ∈ natToDigits n, isDigitChar c = true := by
  intro c hc
  exact natToDigitsRevAux_all_digits (n + 1) n c (List.mem_reverse.mp hc)

theorem natToDigitsRevAux_length_le :
    ∀ (fuel n k : Nat), n < fuel → n < 10 ^ k → 0 < k →
      (natToDigitsRevAux fuel n).length ≤ k := by
  intro fuel
  induction fuel with
  | zero => intro n k hn; omega
  | succ f ih =>
    intro n k hn h hk
    rw [natToDigitsRevAux]
    split
    · next h10 => simpa using hk
    · next h10 =>
      simp only [List.length_cons]
      have hk1 : 1 < k := by
        rcases Nat.lt_or_ge 1 k with h' | h'
        · exact h'
        · exfalso
          have hk1' : k = 1 := by omega
          subst hk1'
          rw [pow_one] at h
          omega
      have hb : n / 10 < 10 ^ (k - 1) := by
        have : 10 ^ k = 10 ^ (k - 1) * 10 := by
          rw [← pow_succ]
          congr 1
          omega
        omega
      have hdiv : n / 10 < n := Nat.div_lt_self (by omega) (by omega)
      have := ih (n / 10) (k - 1) (by omega) hb (by omega)
      omega

theorem natToDigits_length_le {n k : Nat} (h : n < 10 ^ k) (hk : 0 < k) :
    (natToDigits n).length ≤ k := by
  simpa [natToDigits, natToDigitsRev] using
    natToDigitsRevAux_length_le (n + 1) n k (by omega) h hk

theorem padZeros_length {k : Nat} {cs : List Char} (h : cs.length ≤ k) :
    (padZeros k cs).length = k := by
  simp [padZeros]
  omega

/-! ### Lemmas about `stripChars` -/

theorem dropWhile_idem (p : α → Bool) (l : List α) :
    (l.dropWhile p).dropWhile p = l.dropWhile p := by
  induction l with
  | nil => rfl
  | cons c t ih =>
    by_cases h : p c
    · simp [List.dropWhile_cons, h, ih]
    · simp [List.dropWhile_cons, h]

/-- Dropping the leading whitespace only. -/
def stripLeft (cs : List Char) : List Char := cs.dropWhile isPySpace

/-- Dropping the trailing whitespace only. -/
def stripRight (cs : List Char) : List Char :=
  (cs.reverse.dropWhile isPySpace).reverse

theorem stripChars_eq (cs : List Char) :
    stripChars cs = stripRight (stripLeft cs) := rfl

/-- `l` is a fixed point of `dropWhile isPySpace` (no leading whitespace). -/
def NoLead (l : List Char) : Prop := l.dropWhile isPySpace = l

theorem noLead_dropWhile (l : List Char) : NoLead (l.dropWhile isPySpace) :=
  dropWhile_idem _ l

theorem noLead_head {c : Char} {t : List Char} (h : NoLead (c :: t)) :
    isPySpace c = false := by
  by_cases hc : isPySpace c
  · exfalso
    unfold NoLead at h
    rw [List.dropWhile_cons, if_pos hc] at h
    have := congrArg List.length h
    have hlen : (List.dropWhile isPySpace t).length ≤ t.length :=
      (List.dropWhile_suffix _).length_le
    simp at this
    omega
  · simpa using hc

theorem noLead_of_head_false {c : Char} {t : List Char}
    (h : isPySpace c = false) : NoLead (c :: t) := by
  unfold NoLead
  rw [List.dropWhile_cons, if_neg (by simp [h])]

/-- `stripRight` preserves the absence of leading whitespace. -/
theorem noLead_stripRight {l : List Char} (h : NoLead l) :
    NoLead (stripRight l) := by
  cases l with
  | nil => simpa [stripRight] using h
  | cons c t =>
    have hc : isPySpace c = false := noLead_head h
    unfold stripRight
    rw [List.reverse_cons, List.dropWhile_append]
    by_cases he : (t.reverse.dropWhile isPySpace).isEmpty
    · rw [if_pos he]
      rw [List.dropWhile_cons]
      simp [hc]
      unfold NoLead
      rw [List.dropWhile_cons]
      simp [hc]
    · rw [if_neg he]
      rw [List.reverse_append]
      simp only [List.reverse_cons, List.reverse_nil, List.nil_append,
        List.singleton_append]
      exact noLead_of_head_false hc

theorem stripRight_of_noLead_eq {l : List Char} :
    stripRight (stripRight l) = stripRight l := by
  unfold stripRight
  rw [List.reverse_reverse, dropWhile_idem]

theorem stripChars_idem (cs : List Char) :
    stripChars (stripChars cs) = stripChars cs := by
  rw [stripChars_eq cs, stripChars_eq]
  have h1 : NoLead (stripLeft cs) := noLead_dropWhile cs
  have h2 : NoLead (stripRight (stripLeft cs)) := noLead_stripRight h1
  unfold NoLead at h2
  show stripRight (List.dropWhile isPySpace (stripRight (stripLeft cs))) = _
  rw [h2, stripRight_of_noLead_eq]

theorem stripChars_of_stripped {cs : List Char}
    (h1 : cs.dropWhile isPySpace = cs)
    (h2 : cs.reverse.dropWhile isPySpace = cs.reverse) :
    stripChars cs = cs := by
  rw [stripChars_eq]
  show stripRight (cs.dropWhile isPySpace) = cs
  rw [h1]
  unfold stripRight
  rw [h2, List.reverse_reverse]

theorem dropWhile_eq_self_of_all {l : List Char}
    (h : ∀ c ∈ l, isPySpace c = false) : l.dropWhile isPySpace = l := by
  cases l with
  | nil => rfl
  | cons c t =>
    rw [List.dropWhile_cons, if_neg (by simp [h c (by simp)])]

theorem stripChars_of_no_space {cs : List Char}
    (h : ∀ c ∈ cs, isPySpace c = false) : stripChars cs = cs := by
  apply stripChars_of_stripped
  · exact dropWhile_eq_self_of_all h
  · exact dropWhile_eq_self_of_all (fun c hc => h c (List.mem_reverse.mp hc))

/-- A string is stripped if stripping does not change it. -/
def Stripped (s : String) : Prop := pyStrip s = s

theorem stripped_pyStrip (s : String) : Stripped (pyStrip s) := by
  unfold Stripped pyStrip
  rw [stripChars_idem]

/-! ## Numeric parsing (`pd.to_numeric(..., errors='coerce')`)

The app's numeric cells are plain decimal literals: optional sign, digits, at
most one decimal point.  The parser below accepts exactly those; anything
else coerces to `none` (NaN). -/

/-- Split a character list at its (unique) decimal point.  Returns the
integer and fractional digit runs; `none` when there are two or more dots. -/
def splitDot : List Char → Option (List Char × List Char)
  | [] => some ([], [])
  | c :: t =>
    if c = '.' then
      if t.any (fun d => d = '.') then none else some ([], t)
    else
      match splitDot t with
      | none => none
      | some (i, f) => some (c :: i, f)

/-- Parse an unsigned decimal body (digit run, optional dot, digit run; at
least one digit), applying the sign `neg`. -/
def parseUnsigned (body : List Char) (neg : Bool) : Option ℚ :=
  match splitDot body with
  | none => none
  | some (ip, fp) =>
    if ip.all isDigitChar && fp.all isDigitChar && !(ip.isEmpty && fp.isEmpty) then
      some ((if neg then (-1 : ℚ) else 1) *
        ((digitsVal ip : ℚ) + (digitsVal fp : ℚ) / 10 ^ fp.length))
    else none

/-- `pd.to_numeric(s, errors='coerce')` on a decimal-literal string:
optional leading sign, digit run, optional dot, digit run; at least one
digit.  Any other shape gives `none` (NaN). -/
def parseAmountChars (cs : List Char) : Option ℚ :=
  match cs with
  | [] => none
  | c :: rest =>
    if c = '-' then parseUnsigned rest true
    else if c = '+' then parseUnsigned rest false
    else parseUnsigned (c :: rest) false

/-- Numeric parse on strings. -/
def parseAmount (s : String) : Option ℚ := parseAmountChars s.data

/-- Decimal rendering of a rational whose denominator divides a power of
ten (every value `parseAmount` can produce), as written back by
`DataFrame.to_csv` for a float column: sign, integer digits, dot,
`q.den` fractional digits. -/
def amountToChars (q : ℚ) : List Char :=
  let m := q.den
  let N := q.num.natAbs * (10 ^ m / q.den)
  (if q < 0 then ['-'] else []) ++
    natToDigits (N / 10 ^ m) ++ '.' :: padZeros m (natToDigits (N % 10 ^ m))

/-- Decimal rendering on strings. -/
def amountToString (q : ℚ) : String := ⟨amountToChars q⟩

/-! ### Roundtrip correctness of the decimal printer -/

/-- A divisor of a power of ten divides the power of ten with exponent
itself. -/
theorem dvd_ten_pow_self {d f : ℕ} (hd : 0 < d) (h : d ∣ 10 ^ f) :
    d ∣ 10 ^ d := by
  induction d using Nat.strong_induction_on with
  | _ d ih =>
    rcases Nat.lt_or_ge d 2 with hd2 | hd2
    · have h1 : d = 1 := by omega
      subst h1
      exact one_dvd _
    · obtain ⟨p, hp, hpd⟩ := Nat.exists_prime_and_dvd (show d ≠ 1 by omega)
      have hp10 : p ∣ 10 := hp.dvd_of_dvd_pow (hpd.trans h)
      obtain ⟨e, he⟩ := hpd
      have hep : 0 < e := by
        rcases Nat.eq_zero_or_pos e with h0 | h0
        · subst h0; omega
        · exact h0
      have hed : e < d := by
        have hp2 : 2 ≤ p := hp.two_le
        rw [he]
        nlinarith
      have hedvd : e ∣ 10 ^ f := dvd_trans ⟨p, by rw [he]; ring⟩ h
      have := ih e hed hep hedvd
      calc d = p * e := he
        _ ∣ 10 * 10 ^ e := mul_dvd_mul hp10 this
        _ = 10 ^ (e + 1) := by ring
        _ ∣ 10 ^ d := pow_dvd_pow 10 (by omega)

theorem splitDot_no_dot {cs : List Char} (h : ∀ c ∈ cs, c ≠ '.') :
    splitDot cs = some (cs, []) := by
  induction cs with
  | nil => rfl
  | cons c t ih =>
    rw [splitDot, if_neg (h c (by simp)), ih (fun x hx => h x (by simp [hx]))]

theorem splitDot_append {a b : List Char} (ha : ∀ c ∈ a, c ≠ '.')
    (hb : ∀ c ∈ b, c ≠ '.') :
    splitDot (a ++ '.' :: b) = some (a, b) := by
  induction a with
  | nil =>
    simp only [List.nil_append]
    rw [splitDot, if_pos rfl]
    have : b.any (fun d => d = '.') = false := by
      rw [List.any_eq_false]
      intro x hx
      simpa using hb x hx
    rw [this]
    simp
  | cons c t ih =>
    rw [List.cons_append, splitDot, if_neg (ha c (by simp)),
      ih (fun x hx => ha x (by simp [hx]))]

theorem digit_ne_dot {c : Char} (h : isDigitChar c = true) : c ≠ '.' := by
  intro he
  subst he
  simp [isDigitChar] at h

theorem digit_not_space {c : Char} (h : isDigitChar c = true) :
    isPySpace c = false := by
  unfold isDigitChar at h
  unfold isPySpace
  rcases Bool.and_eq_true .. |>.mp h with ⟨h1, h2⟩
  simp only [decide_eq_true_eq] at h1 h2
  simp only [Bool.or_eq_false_iff, beq_eq_false_iff_ne, ne_eq]
  refine ⟨⟨⟨⟨⟨?_, ?_⟩, ?_⟩, ?_⟩, ?_⟩, ?_⟩ <;>
    (intro he; subst he; revert h1 h2; decide)

/-- Every value `parseUnsigned` produces has a denominator dividing
`10 ^ den`. -/
theorem parseUnsigned_den_dvd {body : List Char} {neg : Bool} {q : ℚ}
    (h : parseUnsigned body neg = some q) : q.den ∣ 10 ^ q.den := by
  rw [parseUnsigned] at h
  split at h
  · exact absurd h (by simp)
  · next ip fp hsd =>
    split at h
    · next hcond =>
      simp only [Option.some.injEq] at h
      -- q is ±(I + F / 10^L); its denominator divides 10^L
      set X : ℚ := (digitsVal ip : ℚ) + (digitsVal fp : ℚ) / 10 ^ fp.length with hX
      have hbase : X = ((digitsVal ip * 10 ^ fp.length + digitsVal fp : ℤ) : ℚ) /
            ((10 ^ fp.length : ℤ) : ℚ) := by
        rw [hX]
        push_cast
        field_simp
      have hdvd0 : ((X.den : ℤ)) ∣ (10 ^ fp.length : ℤ) := by
        rw [hbase, ← Rat.divInt_eq_div]
        exact Rat.den_dvd _ _
      have hden : q.den = X.den := by
        cases neg with
        | false =>
          simp only [Bool.false_eq_true, if_false, one_mul] at h
          rw [← h]
        | true =>
          simp only [if_true, neg_one_mul] at h
          rw [← h, Rat.den_neg_eq_den]
      have hdvd : (q.den : ℤ) ∣ (10 ^ fp.length : ℤ) := hden ▸ hdvd0
      have hdvdN : q.den ∣ 10 ^ fp.length := by
        have h10 : ((10 ^ fp.length : ℕ) : ℤ) = (10 ^ fp.length : ℤ) := by push_cast; ring
        exact Int.ofNat_dvd.mp (by rw [h10]; exact hdvd)
      exact dvd_ten_pow_self q.den_pos hdvdN
    · simp at h

/-- Every value the numeric parser produces has a denominator dividing
`10 ^ den`. -/
theorem parse_den_dvd {cs : List Char} {q : ℚ}
    (h : parseAmountChars cs = some q) : q.den ∣ 10 ^ q.den := by
  match cs with
  | [] => simp [parseAmountChars] at h
  | c :: rest =>
    rw [parseAmountChars] at h
    by_cases h1 : c = '-'
    · rw [if_pos h1] at h
      exact parseUnsigned_den_dvd h
    · rw [if_neg h1] at h
      by_cases h2 : c = '+'
      · rw [if_pos h2] at h
        exact parseUnsigned_den_dvd h
      · rw [if_neg h2] at h
        exact parseUnsigned_den_dvd h

theorem natToDigits_ne_nil (n : Nat) : natToDigits n ≠ [] := by
  unfold natToDigits natToDigitsRev
  rw [natToDigitsRevAux]
  split
  · simp
  · simp

theorem digit_ne_dash {c : Char} (h : isDigitChar c = true) : c ≠ '-' := by
  intro he; subst he; simp [isDigitChar] at h

theorem digit_ne_plus {c : Char} (h : isDigitChar c = true) : c ≠ '+' := by
  intro he; subst he; simp [isDigitChar] at h

theorem padZeros_all_digits {k : Nat} {cs : List Char}
    (h : ∀ c ∈ cs, isDigitChar c = true) :
    ∀ c ∈ padZeros k cs, isDigitChar c = true := by
  intro c hc
  rw [padZeros, List.mem_append] at hc
  rcases hc with hc | hc
  · rw [List.eq_of_mem_replicate hc]; rfl
  · exact h c hc

/-- Evaluation of `parseUnsigned` on a well-formed printed body. -/
theorem parseUnsigned_eval {ip fp : List Char}
    (hipd : ∀ c ∈ ip, isDigitChar c = true)
    (hfpd : ∀ c ∈ fp, isDigitChar c = true)
    (hipne : ip ≠ []) (neg : Bool) :
    parseUnsigned (ip ++ '.' :: fp) neg =
      some ((if neg then (-1 : ℚ) else 1) *
        ((digitsVal ip : ℚ) + (digitsVal fp : ℚ) / 10 ^ fp.length)) := by
  have hsd : splitDot (ip ++ '.' :: fp) = some (ip, fp) :=
    splitDot_append (fun x hx => digit_ne_dot (hipd x hx))
      (fun x hx => digit_ne_dot (hfpd x hx))
  have hipe : ip.isEmpty = false := by
    cases hi : ip with
    | nil => exact absurd hi hipne
    | cons a b => rfl
  have h1 : ip.all isDigitChar = true := List.all_eq_true.mpr hipd
  have h2 : fp.all isDigitChar = true := List.all_eq_true.mpr hfpd
  rw [parseUnsigned, hsd]
  simp [h1, h2, hipe]

/-- The decimal printer is a right inverse of the numeric parser on every
rational whose denominator divides `10 ^ den` (all parser outputs are such,
by `parse_den_dvd`). -/
theorem amount_roundtrip {q : ℚ} (hq : q.den ∣ 10 ^ q.den) :
    parseAmountChars (amountToChars q) = some q := by
  set m := q.den with hm
  set D := 10 ^ m with hD
  set k := D / q.den with hk
  set N := q.num.natAbs * k with hN
  have hDpos : 0 < D := by positivity
  have hmpos : 0 < m := q.den_pos
  have hkden : q.den * k = D := Nat.mul_div_cancel' hq
  have hkpos : 0 < k := by
    rcases Nat.eq_zero_or_pos k with h0 | h0
    · rw [h0, Nat.mul_zero] at hkden; omega
    · exact h0
  -- digit runs
  set ip := natToDigits (N / D) with hip
  set fp := padZeros m (natToDigits (N % D)) with hfp
  have hipd : ∀ c ∈ ip, isDigitChar c = true := natToDigits_all_digits _
  have hfpd : ∀ c ∈ fp, isDigitChar c = true :=
    padZeros_all_digits (natToDigits_all_digits _)
  have hfplen : fp.length = m := by
    apply padZeros_length
    exact natToDigits_length_le (by rw [hD] at *; exact Nat.mod_lt _ hDpos) hmpos
  have hipne : ip ≠ [] := natToDigits_ne_nil _
  have hvip : digitsVal ip = N / D := digitsVal_natToDigits _
  have hvfp : digitsVal fp = N % D := by
    rw [hfp, digitsVal_padZeros, digitsVal_natToDigits]
  -- the numeric value represented by the digit runs
  have hD0 : (D : ℚ) ≠ 0 := by positivity
  have hdenQ : ((q.den : ℚ)) ≠ 0 := by
    exact_mod_cast q.den_pos.ne'
  have hDQ : ((10 : ℚ)) ^ m = (D : ℚ) := by rw [hD]; push_cast; ring
  have hval : (digitsVal ip : ℚ) + (digitsVal fp : ℚ) / 10 ^ fp.length =
      (N : ℚ) / (D : ℚ) := by
    rw [hvip, hvfp, hfplen, hDQ]
    have h1 : ((N / D : ℕ) : ℚ) = ((N / D : ℕ) : ℚ) * (D : ℚ) / (D : ℚ) := by
      rw [mul_div_cancel_right₀ _ hD0]
    rw [h1, div_add_div_same]
    congr 1
    have hmod : (N / D) * D + N % D = N := by
      rw [Nat.mul_comm]
      exact Nat.div_add_mod N D
    exact_mod_cast hmod
  have habs : (N : ℚ) / (D : ℚ) = ((q.num.natAbs : ℚ)) / ((q.den : ℚ)) := by
    rw [hN, ← hkden]
    push_cast
    have hkQ : ((k : ℚ)) ≠ 0 := by
      exact_mod_cast hkpos.ne'
    rw [div_eq_div_iff (by positivity) hdenQ]
    · ring
  -- split the printed list by sign and run the parser
  rcases hsign : decide (q < 0) with _ | _
  · -- nonnegative: no sign character
    have hqpos : ¬ q < 0 := by simpa using hsign
    have hnum : (q.num.natAbs : ℚ) = (q.num : ℚ) := by
      have h0 : 0 ≤ q.num := Rat.num_nonneg.mpr (le_of_not_lt hqpos)
      rw [Int.cast_natAbs, abs_of_nonneg h0]
    have hfinal : (digitsVal ip : ℚ) + (digitsVal fp : ℚ) / 10 ^ fp.length = q := by
      rw [hval, habs, hnum, Rat.num_div_den]
    have hql : amountToChars q = ip ++ '.' :: fp := by
      rw [amountToChars, if_neg hqpos]
      rfl
    obtain ⟨d, ds, hds⟩ := List.exists_cons_of_ne_nil hipne
    have hdd : isDigitChar d = true := hipd d (by rw [hds]; simp)
    rw [hql, hds, List.cons_append, parseAmountChars]
    rw [if_neg (digit_ne_dash hdd), if_neg (digit_ne_plus hdd)]
    rw [← List.cons_append, ← hds]
    rw [parseUnsigned_eval hipd hfpd hipne false]
    simpa using hfinal
  · -- negative: leading '-'
    have hqneg : q < 0 := by simpa using hsign
    have hnum : (q.num.natAbs : ℚ) = -(q.num : ℚ) := by
      have h0 : q.num ≤ 0 := le_of_lt (Rat.num_neg.mpr hqneg)
      rw [Int.cast_natAbs, abs_of_nonpos h0]
      push_cast
      ring
    have hfinal : (-1 : ℚ) * ((digitsVal ip : ℚ) + (digitsVal fp : ℚ) / 10 ^ fp.length) = q := by
      rw [hval, habs, hnum, neg_one_mul, neg_div, neg_neg, Rat.num_div_den]
    have hql : amountToChars q = '-' :: (ip ++ '.' :: fp) := by
      rw [amountToChars, if_pos hqneg]
      rfl
    rw [hql, parseAmountChars, if_pos rfl]
    rw [parseUnsigned_eval hipd hfpd hipne true]
    simpa using hfinal

/-! ## Dates (`pd.to_datetime(..., errors='coerce')`)

The app only ever writes dates in ISO `YYYY-MM-DD` form, so the embedding
parses exactly that; every other string is an unparseable date (`none`,
i.e. NaT). -/

/-- A calendar date as stored by the cleaning pipeline. -/
structure PDate where
  year : Nat
  month : Nat
  day : Nat
deriving DecidableEq, Repr

/-- Field bounds guaranteed by the date parser. -/
def PDate.Valid (d : PDate) : Prop :=
  d.year ≤ 9999 ∧ 1 ≤ d.month ∧ d.month ≤ 12 ∧ 1 ≤ d.day ∧ d.day ≤ 31

instance (d : PDate) : Decidable d.Valid := by
  unfold PDate.Valid
  infer_instance

/-- Split a character list on every occurrence of `sep`. -/
def splitOnChar (sep : Char) : List Char → List (List Char)
  | [] => [[]]
  | c :: rest =>
    match splitOnChar sep rest with
    | [] => [[]]
    | g :: gs => if c = sep then [] :: g :: gs else (c :: g) :: gs

/-- `pd.to_datetime(s, errors='coerce')` restricted to the ISO
`YYYY-MM-DD` shape: three dash-separated digit runs with in-range values;
anything else is NaT (`none`). -/
def parseDateChars (cs : List Char) : Option PDate :=
  match splitOnChar '-' cs with
  | [ys, ms, ds] =>
    if !ys.isEmpty && !ms.isEmpty && !ds.isEmpty &&
        ys.all isDigitChar && ms.all isDigitChar && ds.all isDigitChar then
      let d : PDate := ⟨digitsVal ys, digitsVal ms, digitsVal ds⟩
      if _h : d.Valid then some d else none
    else none
  | _ => none

/-- Date parse on strings. -/
def parseDate (s : String) : Option PDate := parseDateChars s.data

/-- ISO `YYYY-MM-DD` rendering, as written by `DataFrame.to_csv` for a
datetime column whose times are all midnight. -/
def dateToChars (d : PDate) : List Char :=
  padZeros 4 (natToDigits d.year) ++
    '-' :: (padZeros 2 (natToDigits d.month) ++ '-' :: padZeros 2 (natToDigits d.day))

/-- Date cell written back to CSV: NaT becomes the empty string. -/
def dateCellChars (od : Option PDate) : List Char :=
  match od with
  | none => []
  | some d => dateToChars d

theorem splitOnChar_ne_nil (sep : Char) (cs : List Char) :
    splitOnChar sep cs ≠ [] := by
  cases cs with
  | nil => simp [splitOnChar]
  | cons c rest =>
    rw [splitOnChar]
    rcases h : splitOnChar sep rest with _ | ⟨g, gs⟩
    · simp
    · by_cases hc : c = sep
      · simp [hc]
      · simp [hc]

theorem splitOnChar_no_sep {sep : Char} {a : List Char}
    (h : ∀ c ∈ a, c ≠ sep) : splitOnChar sep a = [a] := by
  induction a with
  | nil => rfl
  | cons c t ih =>
    rw [splitOnChar, ih (fun x hx => h x (by simp [hx]))]
    simp [h c (by simp)]

theorem splitOnChar_append {sep : Char} {a rest : List Char}
    (h : ∀ c ∈ a, c ≠ sep) :
    splitOnChar sep (a ++ sep :: rest) = a :: splitOnChar sep rest := by
  induction a with
  | nil =>
    simp only [List.nil_append]
    rcases hr : splitOnChar sep rest with _ | ⟨g, gs⟩
    · exact absurd hr (splitOnChar_ne_nil sep rest)
    · rw [splitOnChar, hr]
      simp
  | cons c t ih =>
    rw [List.cons_append, splitOnChar, ih (fun x hx => h x (by simp [hx]))]
    simp [h c (by simp)]

theorem padZeros_ne_nil {k : Nat} {cs : List Char} (h : cs ≠ []) :
    padZeros k cs ≠ [] := by
  rw [padZeros]
  intro he
  rcases List.append_eq_nil.mp he with ⟨_, h2⟩
  exact h h2

theorem padZeros_isEmpty_false {k : Nat} {cs : List Char} (h : cs ≠ []) :
    (padZeros k cs).isEmpty = false := by
  rcases hp : padZeros k cs with _ | ⟨a, b⟩
  · exact absurd hp (padZeros_ne_nil h)
  · rfl

/-- The ISO printer is a right inverse of the date parser on valid dates. -/
theorem date_roundtrip {d : PDate} (hv : d.Valid) :
    parseDateChars (dateToChars d) = some d := by
  obtain ⟨hy, hm1, hm2, hd1, hd2⟩ := hv
  set ys := padZeros 4 (natToDigits d.year) with hys
  set ms := padZeros 2 (natToDigits d.month) with hms
  set ds := padZeros 2 (natToDigits d.day) with hds
  have hysd : ∀ c ∈ ys, isDigitChar c = true :=
    padZeros_all_digits (natToDigits_all_digits _)
  have hmsd : ∀ c ∈ ms, isDigitChar c = true :=
    padZeros_all_digits (natToDigits_all_digits _)
  have hdsd : ∀ c ∈ ds, isDigitChar c = true :=
    padZeros_all_digits (natToDigits_all_digits _)
  have hsplit : splitOnChar '-' (dateToChars d) = [ys, ms, ds] := by
    rw [dateToChars, ← hys, ← hms, ← hds]
    rw [splitOnChar_append (fun x hx => digit_ne_dash (hysd x hx))]
    rw [splitOnChar_append (fun x hx => digit_ne_dash (hmsd x hx))]
    rw [splitOnChar_no_sep (fun x hx => digit_ne_dash (hdsd x hx))]
  have hvy : digitsVal ys = d.year := by
    rw [hys, digitsVal_padZeros, digitsVal_natToDigits]
  have hvm : digitsVal ms = d.month := by
    rw [hms, digitsVal_padZeros, digitsVal_natToDigits]
  have hvd : digitsVal ds = d.day := by
    rw [hds, digitsVal_padZeros, digitsVal_natToDigits]
  have hye : ys.isEmpty = false := padZeros_isEmpty_false (natToDigits_ne_nil _)
  have hme : ms.isEmpty = false := padZeros_isEmpty_false (natToDigits_ne_nil _)
  have hde : ds.isEmpty = false := padZeros_isEmpty_false (natToDigits_ne_nil _)
  have hay : ys.all isDigitChar = true := List.all_eq_true.mpr hysd
  have ham : ms.all isDigitChar = true := List.all_eq_true.mpr hmsd
  have had : ds.all isDigitChar = true := List.all_eq_true.mpr hdsd
  rw [parseDateChars, hsplit]
  simp only [hye, hme, hde, hay, ham, had, Bool.not_false, Bool.and_true,
    Bool.true_and, if_true]
  have hvalid : (⟨digitsVal ys, digitsVal ms, digitsVal ds⟩ : PDate).Valid := by
    rw [hvy, hvm, hvd]
    exact ⟨hy, hm1, hm2, hd1, hd2⟩
  rw [dif_pos hvalid]
  rw [hvy, hvm, hvd]

/-! ## The ledger rows and `clean_payments_data` (src/app.py lines 69-110) -/

/-- One raw CSV/DataFrame row.  `none` models a missing column or a NaN
cell (both stringify to `"nan"` under `astype(str)` and are replaced by the
empty string on line 77). -/
structure RawRow where
  date : Option String
  person : Option String
  amount : Option String
  type : Option String
  status : Option String
  description : Option String
  payment_method : Option String
  reference_number : Option String
  cheque_status : Option String
  transaction_status : Option String
deriving DecidableEq, Repr

/-- One cleaned row: text fields are stripped strings, `amount` is numeric
(line 79), `date` is a parsed date or NaT (line 80). -/
structure CleanRow where
  date : Option PDate
  person : String
  amount : ℚ
  type : String
  status : String
  description : String
  payment_method : String
  reference_number : String
  cheque_status : String
  transaction_status : String
deriving DecidableEq, Repr

/-- Lines 74-77: introduce a missing column as `''`, then
`astype(str).replace('nan', '').replace('None', '').str.strip()`.  The
whole-cell replace happens before the strip, so `" nan "` strips to
`"nan"` rather than being replaced. -/
def normCell : Option String → String
  | none => ""
  | some s => if s = "nan" ∨ s = "None" then "" else pyStrip s

/-- Lines 73-80: column introduction, text normalization, numeric coercion
with `fillna(0.0)`, and date coercion. -/
def preRow (x : RawRow) : CleanRow :=
  { date := parseDate (normCell x.date)
    person := normCell x.person
    amount := (parseAmount (normCell x.amount)).getD 0
    type := normCell x.type
    status := normCell x.status
    description := normCell x.description
    payment_method := normCell x.payment_method
    reference_number := normCell x.reference_number
    cheque_status := normCell x.cheque_status
    transaction_status := normCell x.transaction_status }

/-- Lines 82-83: blank the cheque status of every row whose payment method
lower-cases to `'cash'`. -/
def apply_cash_mask (r : CleanRow) : CleanRow :=
  if pyLower r.payment_method = "cash" then { r with cheque_status := "" } else r

/-- Lines 85-98 (the loop body's first block): repair a status value that
was entered into the reference-number field.  A settlement status found
there backfills `transaction_status` only when the current value is
invalid, and the reference number is blanked; a cheque status found there
is handled the same way but only when the payment method is `'cheque'`. -/
def relocate_status (r : CleanRow) : CleanRow :=
  if pyLower r.reference_number ∈ valid_transaction_statuses_lower then
    let r1 := if pyLower r.transaction_status ∈ valid_transaction_statuses_lower then r
              else { r with transaction_status := pyLower r.reference_number }
    { r1 with reference_number := "" }
  else if pyLower r.reference_number ∈ valid_cheque_statuses_lower ∧
      pyLower r.payment_method = "cheque" then
    let r1 := if pyLower r.cheque_status ∈ valid_cheque_statuses_lower then r
              else { r with cheque_status := pyLower r.reference_number }
    { r1 with reference_number := "" }
  else r

/-- Lines 100-101: default an invalid settlement status to `'completed'`. -/
def default_transaction_status (r : CleanRow) : CleanRow :=
  if pyLower r.transaction_status ∈ valid_transaction_statuses_lower then r
  else { r with transaction_status := "completed" }

/-- Lines 103-107: a cheque row keeps a valid clearance status and defaults
an invalid one to `'processing'` (the spec's `in_clearing`); every other
row gets an empty clearance status. -/
def enforce_cheque_status (r : CleanRow) : CleanRow :=
  if pyLower r.payment_method = "cheque" then
    if pyLower r.cheque_status ∈ valid_cheque_statuses_lower then r
    else { r with cheque_status := "processing" }
  else { r with cheque_status := "" }

/-- The per-row work of `clean_payments_data` (lines 73-107): the
pre-loop normalization followed by the loop body.  The loop reads the
row's own fields only, so it is a per-row function. -/
def cleanRow (x : RawRow) : CleanRow :=
  enforce_cheque_status (default_transaction_status (relocate_status (apply_cash_mask (preRow x))))

/-- Line 109's blank-row test: no parsed date, empty person, zero amount. -/
def is_blank (r : CleanRow) : Bool :=
  r.date.isNone && r.person == "" && decide (r.amount = 0)

/-- `clean_payments_data` (src/app.py lines 69-110): early return on the
empty table, otherwise per-row normalization followed by dropping the
fully-blank rows. -/
def clean_payments_data (df : List RawRow) : List CleanRow :=
  if df.isEmpty then []
  else (df.map cleanRow).filter (fun r => !is_blank r)

/-- The CSV write-back (`df.to_csv`, line 135) followed by the re-read
(`pd.read_csv(..., keep_default_na=False)`): every cell becomes its string
rendering; NaT dates become empty cells. -/
def toCSVRow (r : CleanRow) : RawRow :=
  { date := some ⟨dateCellChars r.date⟩
    person := some r.person
    amount := some (amountToString r.amount)
    type := some r.type
    status := some r.status
    description := some r.description
    payment_method := some r.payment_method
    reference_number := some r.reference_number
    cheque_status := some r.cheque_status
    transaction_status := some r.transaction_status }

/-! ## Summary totals (`generate_html_summary`, src/app.py lines 244-272)

`df_for_totals` lower-cases `type`, `payment_method` and
`transaction_status` before summing, so every predicate below goes through
`pyLower`.  The `groupby(['type','payment_method']).sum().unstack().fillna(0)`
cross-tabulation guarded by `if 'cash' in payment_totals.columns and ...`
is modelled by `crosstab_cell`. -/

/-- Sum of the `amount` column over the rows satisfying `p`. -/
def amount_sum (df : List CleanRow) (p : CleanRow → Bool) : ℚ :=
  ((df.filter p).map (fun r => r.amount)).sum

/-- One cell of the direction × instrument cross-tabulation, with the
source's presence guards: a missing row or column index yields the literal
`0`, and a present-but-empty combination yields the `fillna(0)` value,
which equals the sum over the matching rows. -/
def crosstab_cell (df : List CleanRow) (t m : String) : ℚ :=
  if (df.any fun r => pyLower r.payment_method == m) &&
      (df.any fun r => pyLower r.type == t) then
    amount_sum df (fun r => pyLower r.type == t && pyLower r.payment_method == m)
  else 0

/-- The `totals` mapping built on lines 251-272. -/
structure Totals where
  total_received : ℚ
  pending_received : ℚ
  total_paid : ℚ
  pending_paid : ℚ
  cash_received : ℚ
  cheque_received : ℚ
  cash_paid : ℚ
  cheque_paid : ℚ
  net_balance : ℚ
deriving DecidableEq, Repr

/-- Lines 251-272 of `generate_html_summary`. -/
def generate_totals (df : List CleanRow) : Totals :=
  { total_received := amount_sum df (fun r => pyLower r.type == "paid_to_me")
    pending_received := amount_sum df
      (fun r => pyLower r.type == "paid_to_me" && pyLower r.transaction_status == "pending")
    total_paid := amount_sum df (fun r => pyLower r.type == "i_paid")
    pending_paid := amount_sum df
      (fun r => pyLower r.type == "i_paid" && pyLower r.transaction_status == "pending")
    cash_received := crosstab_cell df "paid_to_me" "cash"
    cheque_received := crosstab_cell df "paid_to_me" "cheque"
    cash_paid := crosstab_cell df "i_paid" "cash"
    cheque_paid := crosstab_cell df "i_paid" "cheque"
    net_balance := amount_sum df (fun r => pyLower r.type == "paid_to_me") -
      amount_sum df (fun r => pyLower r.type == "i_paid") }

/-! ## Client-expense summary (src/app.py lines 1985-2029, mirrored on
lines 277-318) -/

/-- One cleaned client-expense row (`client_expenses.csv`). -/
structure ExpenseRow where
  original_transaction_ref_num : String
  expense_date : String
  expense_person : String
  expense_category : String
  expense_amount : ℚ
  expense_quantity : ℚ
  expense_description : String
deriving DecidableEq, Repr

/-- Line 2000: `expense_amount * expense_quantity`. -/
def total_line_amount (e : ExpenseRow) : ℚ := e.expense_amount * e.expense_quantity

/-- `groupby(key)[val].sum()`: one `(key, sum)` pair per distinct key.
(pandas sorts the group keys; the order is irrelevant to every claim, so
first-occurrence order is used.) -/
def sum_by (key : α → String) (val : α → ℚ) (xs : List α) : List (String × ℚ) :=
  ((xs.map key).dedup).map
    (fun k => (k, ((xs.filter (fun x => key x == k)).map val).sum))

/-- Lines 2003-2006: total of `i_paid` transaction amounts per person.
The `if not ... .empty` guard is the identity here since grouping an empty
selection yields the empty table either way. -/
def total_paid_to_clients (ps : List CleanRow) : List (String × ℚ) :=
  sum_by (fun r => r.person) (fun r => r.amount)
    (ps.filter (fun r => pyLower r.type == "i_paid"))

/-- Lines 2009-2012: total of `expense_amount * expense_quantity` per
expense person. -/
def total_spent_by_clients (es : List ExpenseRow) : List (String × ℚ) :=
  sum_by (fun e => e.expense_person) total_line_amount es

/-- Lines 2014-2029: outer merge of the two per-client tables on the
client name, `fillna(0)`, and the derived
`remaining_balance = total_paid_to_client - total_spent_by_client`.
Each entry is `(client_name, total_paid_to_client, total_spent_by_client,
remaining_balance)`. -/
def summary_by_client (ps : List CleanRow) (es : List ExpenseRow) :
    List (String × ℚ × ℚ × ℚ) :=
  let paid := total_paid_to_clients ps
  let spent := total_spent_by_clients es
  let names := (paid.map Prod.fst ++ spent.map Prod.fst).dedup
  names.map (fun n =>
    let p := (paid.lookup n).getD 0
    let s := (spent.lookup n).getD 0
    (n, p, s, p - s))

/-! ## The Add Transaction submit handler (src/app.py lines 1518-1562) -/

/-- The state of the Add Transaction form at submit time.
`selected_person` is `none` when the dropdown still shows `"Select..."`. -/
structure SubmitForm where
  selected_person : Option String
  amount : ℚ
  date : PDate
  reference_number : String
  payment_method : String
  cheque_status : String
  status : String
  description : String
  transaction_type : String
deriving Repr

/-- Lines 1519-1546: the four cumulative validation checks — a person must
be selected, the amount must be positive, the stripped reference number
must be non-empty (for cash and cheque alike; only the warning text
differs), and the stripped reference number must not already occur in the
ledger file. -/
def validate_submission (f : SubmitForm) (existing_refs : List String) : Bool :=
  f.selected_person.isSome &&
  decide (0 < f.amount) &&
  (pyStrip f.reference_number != "") &&
  !(existing_refs.contains (pyStrip f.reference_number))

/-- Lines 1550-1561: the appended CSV row.  `cheque_status` is Python
`None` for a cash row (a NaN cell). -/
def new_row (f : SubmitForm) : RawRow :=
  { date := some ⟨dateToChars f.date⟩
    person := f.selected_person
    amount := some (amountToString f.amount)
    type := some (if f.transaction_type = "Paid to Me" then "paid_to_me" else "i_paid")
    status := some f.status
    description := some f.description
    payment_method := some f.payment_method
    reference_number := some (pyStrip f.reference_number)
    cheque_status := if f.payment_method = "cheque" then some f.cheque_status else none
    transaction_status := some f.status }

/-- Lines 1548-1562: on success the row is appended to the ledger file; a
failed validation skips the whole write block. -/
def add_transaction (f : SubmitForm) (existing_refs : List String)
    (ledger : List RawRow) : List RawRow :=
  if validate_submission f existing_refs then ledger ++ [new_row f] else ledger

/-! ## Field-propagation lemmas for the cleaning pipeline

Each step of the loop body touches at most two fields; these lemmas record
what each step leaves untouched. -/

theorem apply_cash_mask_fields (r : CleanRow) :
    (apply_cash_mask r).date = r.date ∧ (apply_cash_mask r).person = r.person ∧
    (apply_cash_mask r).amount = r.amount ∧ (apply_cash_mask r).type = r.type ∧
    (apply_cash_mask r).status = r.status ∧
    (apply_cash_mask r).description = r.description ∧
    (apply_cash_mask r).payment_method = r.payment_method ∧
    (apply_cash_mask r).reference_number = r.reference_number ∧
    (apply_cash_mask r).transaction_status = r.transaction_status := by
  simp only [apply_cash_mask]
  split_ifs <;> exact ⟨rfl, rfl, rfl, rfl, rfl, rfl, rfl, rfl, rfl⟩

theorem relocate_status_fields (r : CleanRow) :
    (relocate_status r).date = r.date ∧ (relocate_status r).person = r.person ∧
    (relocate_status r).amount = r.amount ∧ (relocate_status r).type = r.type ∧
    (relocate_status r).status = r.status ∧
    (relocate_status r).description = r.description ∧
    (relocate_status r).payment_method = r.payment_method := by
  simp only [relocate_status]
  split_ifs <;> exact ⟨rfl, rfl, rfl, rfl, rfl, rfl, rfl⟩

theorem default_transaction_status_fields (r : CleanRow) :
    (default_transaction_status r).date = r.date ∧
    (default_transaction_status r).person = r.person ∧
    (default_transaction_status r).amount = r.amount ∧
    (default_transaction_status r).type = r.type ∧
    (default_transaction_status r).status = r.status ∧
    (default_transaction_status r).description = r.description ∧
    (default_transaction_status r).payment_method = r.payment_method ∧
    (default_transaction_status r).reference_number = r.reference_number ∧
    (default_transaction_status r).cheque_status = r.cheque_status := by
  simp only [default_transaction_status]
  split_ifs <;> exact ⟨rfl, rfl, rfl, rfl, rfl, rfl, rfl, rfl, rfl⟩

theorem enforce_cheque_status_fields (r : CleanRow) :
    (enforce_cheque_status r).date = r.date ∧
    (enforce_cheque_status r).person = r.person ∧
    (enforce_cheque_status r).amount = r.amount ∧
    (enforce_cheque_status r).type = r.type ∧
    (enforce_cheque_status r).status = r.status ∧
    (enforce_cheque_status r).description = r.description ∧
    (enforce_cheque_status r).payment_method = r.payment_method ∧
    (enforce_cheque_status r).reference_number = r.reference_number ∧
    (enforce_cheque_status r).transaction_status = r.transaction_status := by
  simp only [enforce_cheque_status]
  split_ifs <;> exact ⟨rfl, rfl, rfl, rfl, rfl, rfl, rfl, rfl, rfl⟩

theorem cleanRow_person (x : RawRow) : (cleanRow x).person = normCell x.person := by
  unfold cleanRow
  rw [(enforce_cheque_status_fields _).2.1, (default_transaction_status_fields _).2.1,
    (relocate_status_fields _).2.1, (apply_cash_mask_fields _).2.1]
  rfl

theorem cleanRow_amount (x : RawRow) :
    (cleanRow x).amount = (parseAmount (normCell x.amount)).getD 0 := by
  unfold cleanRow
  rw [(enforce_cheque_status_fields _).2.2.1, (default_transaction_status_fields _).2.2.1,
    (relocate_status_fields _).2.2.1, (apply_cash_mask_fields _).2.2.1]
  rfl

theorem cleanRow_date (x : RawRow) : (cleanRow x).date = parseDate (normCell x.date) := by
  unfold cleanRow
  rw [(enforce_cheque_status_fields _).1, (default_transaction_status_fields _).1,
    (relocate_status_fields _).1, (apply_cash_mask_fields _).1]
  rfl

theorem cleanRow_payment_method (x : RawRow) :
    (cleanRow x).payment_method = normCell x.payment_method := by
  unfold cleanRow
  rw [(enforce_cheque_status_fields _).2.2.2.2.2.2.1,
    (default_transaction_status_fields _).2.2.2.2.2.2.1,
    (relocate_status_fields _).2.2.2.2.2.2,
    (apply_cash_mask_fields _).2.2.2.2.2.2.1]
  rfl

theorem steps_payment_method (x : RawRow) :
    (default_transaction_status (relocate_status (apply_cash_mask (preRow x)))).payment_method =
      normCell x.payment_method := by
  rw [(default_transaction_status_fields _).2.2.2.2.2.2.1,
    (relocate_status_fields _).2.2.2.2.2.2,
    (apply_cash_mask_fields _).2.2.2.2.2.2.1]
  rfl

/-- `is_blank` decoded as a proposition. -/
theorem is_blank_iff (r : CleanRow) :
    is_blank r = true ↔ (r.date = none ∧ r.person = "" ∧ r.amount = 0) := by
  simp [is_blank, Option.isNone_iff_eq_none, Bool.and_eq_true,
    beq_iff_eq, decide_eq_true_eq, and_assoc]

/-! ## C10 — the empty table is returned unchanged -/

/-- C10: `clean_payments_data` on a table with zero rows returns it
unchanged (the early return on line 70-71): the empty row list maps to the
empty row list, and no cells are created. -/
theorem C10_empty_table_unchanged : clean_payments_data [] = [] := rfl

/-! ## C3 — cash rows always end with an empty cheque status -/

/-- C3: every input row whose payment instrument (normalized and
case-folded) is `cash` has an empty cheque-clearance status in the
normalizer's output, whatever the input value of that field was
(lines 82-83 blank it, and lines 106-107 blank it again for every
non-cheque row). -/
theorem C3_cash_rows_empty_cheque_status (x : RawRow)
    (h : pyLower (normCell x.payment_method) = "cash") :
    (cleanRow x).cheque_status = "" := by
  unfold cleanRow enforce_cheque_status
  rw [steps_payment_method, h]
  rw [if_neg (by decide)]

/-- A concrete cash row whose cheque-status cell holds `"bounced"`. -/
def exampleCashRow : RawRow where
  date := some "2024-03-01"
  person := some "Acme"
  amount := some "25"
  type := some "i_paid"
  status := some "completed"
  description := some ""
  payment_method := some " Cash "
  reference_number := some "r1"
  cheque_status := some "bounced"
  transaction_status := some "completed"

/-- Concrete instantiation of `C3_cash_rows_empty_cheque_status`: a cash
row carrying the (would-be) clearance status `"bounced"` comes out with an
empty clearance status. -/
theorem C3_witness :
    pyLower (normCell exampleCashRow.payment_method) = "cash" ∧
      (cleanRow exampleCashRow).cheque_status = "" :=
  ⟨by decide, C3_cash_rows_empty_cheque_status _ (by decide)⟩

/-! ## Enumeration members are already lower-case -/

theorem pyLower_mem_trans {s : String}
    (h : s ∈ valid_transaction_statuses_lower) : pyLower s = s := by
  simp only [valid_transaction_statuses_lower, List.mem_cons,
    List.not_mem_nil, or_false] at h
  rcases h with rfl | rfl
  · decide
  · decide

theorem pyLower_mem_cheque {s : String}
    (h : s ∈ valid_cheque_statuses_lower) : pyLower s = s := by
  simp only [valid_cheque_statuses_lower, List.mem_cons,
    List.not_mem_nil, or_false] at h
  rcases h with rfl | rfl | rfl | rfl
  · decide
  · decide
  · decide
  · decide

/-! ## Pointwise characterizations of the loop steps -/

theorem default_transaction_status_keep {r : CleanRow}
    (h : pyLower r.transaction_status ∈ valid_transaction_statuses_lower) :
    default_transaction_status r = r := by
  unfold default_transaction_status
  rw [if_pos h]

theorem enforce_cheque_status_keep {r : CleanRow}
    (h1 : pyLower r.payment_method = "cheque")
    (h2 : pyLower r.cheque_status ∈ valid_cheque_statuses_lower) :
    enforce_cheque_status r = r := by
  unfold enforce_cheque_status
  rw [if_pos h1, if_pos h2]

theorem enforce_cheque_status_default {r : CleanRow}
    (h1 : pyLower r.payment_method = "cheque")
    (h2 : pyLower r.cheque_status ∉ valid_cheque_statuses_lower) :
    enforce_cheque_status r = { r with cheque_status := "processing" } := by
  unfold enforce_cheque_status
  rw [if_pos h1, if_neg h2]

theorem enforce_cheque_status_blank {r : CleanRow}
    (h1 : pyLower r.payment_method ≠ "cheque") :
    enforce_cheque_status r = { r with cheque_status := "" } := by
  unfold enforce_cheque_status
  rw [if_neg h1]

/-! ## Branch analysis of `relocate_status` -/

/-- When the reference number case-folds to a settlement status, the loop
blanks the reference number and backfills `transaction_status` exactly
when the current value is invalid. -/
theorem steps_of_ref_trans (r : CleanRow)
    (h : pyLower r.reference_number ∈ valid_transaction_statuses_lower) :
    (enforce_cheque_status (default_transaction_status (relocate_status r))).reference_number = "" ∧
    (enforce_cheque_status (default_transaction_status (relocate_status r))).transaction_status =
      (if pyLower r.transaction_status ∈ valid_transaction_statuses_lower
       then r.transaction_status else pyLower r.reference_number) := by
  by_cases h2 : pyLower r.transaction_status ∈ valid_transaction_statuses_lower
  · have hB : relocate_status r = { r with reference_number := "" } := by
      unfold relocate_status
      rw [if_pos h, if_pos h2]
    have hD : default_transaction_status ({ r with reference_number := "" } : CleanRow) =
        { r with reference_number := "" } := default_transaction_status_keep h2
    constructor
    · rw [hB, hD, (enforce_cheque_status_fields _).2.2.2.2.2.2.2.1]
    · rw [hB, hD, (enforce_cheque_status_fields _).2.2.2.2.2.2.2.2, if_pos h2]
  · have hmem : pyLower (pyLower r.reference_number) ∈ valid_transaction_statuses_lower := by
      rw [pyLower_mem_trans h]
      exact h
    have hB : relocate_status r = { r with transaction_status := pyLower r.reference_number, reference_number := "" } := by
      unfold relocate_status
      rw [if_pos h, if_neg h2]
    have hD : default_transaction_status ({ r with transaction_status := pyLower r.reference_number, reference_number := "" } : CleanRow) =
        { r with transaction_status := pyLower r.reference_number, reference_number := "" } :=
      default_transaction_status_keep hmem
    constructor
    · rw [hB, hD, (enforce_cheque_status_fields _).2.2.2.2.2.2.2.1]
    · rw [hB, hD, (enforce_cheque_status_fields _).2.2.2.2.2.2.2.2, if_neg h2]

/-- When the reference number case-folds to a cheque-clearance status and
the instrument is cheque, the loop blanks the reference number and
backfills `cheque_status` exactly when the current value is invalid. -/
theorem steps_of_ref_cheque (r : CleanRow)
    (h1 : pyLower r.reference_number ∉ valid_transaction_statuses_lower)
    (h2 : pyLower r.reference_number ∈ valid_cheque_statuses_lower)
    (h3 : pyLower r.payment_method = "cheque") :
    (enforce_cheque_status (default_transaction_status (relocate_status r))).reference_number = "" ∧
    (enforce_cheque_status (default_transaction_status (relocate_status r))).cheque_status =
      (if pyLower r.cheque_status ∈ valid_cheque_statuses_lower
       then r.cheque_status else pyLower r.reference_number) := by
  by_cases hc : pyLower r.cheque_status ∈ valid_cheque_statuses_lower
  · have hB : relocate_status r = { r with reference_number := "" } := by
      unfold relocate_status
      rw [if_neg h1, if_pos ⟨h2, h3⟩, if_pos hc]
    have hEC : enforce_cheque_status
        (default_transaction_status ({ r with reference_number := "" } : CleanRow)) =
        default_transaction_status ({ r with reference_number := "" } : CleanRow) := by
      apply enforce_cheque_status_keep
      · rw [(default_transaction_status_fields _).2.2.2.2.2.2.1]
        exact h3
      · rw [(default_transaction_status_fields _).2.2.2.2.2.2.2.2]
        exact hc
    constructor
    · rw [hB, (enforce_cheque_status_fields _).2.2.2.2.2.2.2.1,
        (default_transaction_status_fields _).2.2.2.2.2.2.2.1]
    · rw [hB, hEC, (default_transaction_status_fields _).2.2.2.2.2.2.2.2, if_pos hc]
  · have hmem : pyLower (pyLower r.reference_number) ∈ valid_cheque_statuses_lower := by
      rw [pyLower_mem_cheque h2]
      exact h2
    have hB : relocate_status r = { r with cheque_status := pyLower r.reference_number, reference_number := "" } := by
      unfold relocate_status
      rw [if_neg h1, if_pos ⟨h2, h3⟩, if_neg hc]
    have hEC : enforce_cheque_status
        (default_transaction_status ({ r with cheque_status := pyLower r.reference_number, reference_number := "" } : CleanRow)) =
        default_transaction_status ({ r with cheque_status := pyLower r.reference_number, reference_number := "" } : CleanRow) := by
      apply enforce_cheque_status_keep
      · rw [(default_transaction_status_fields _).2.2.2.2.2.2.1]
        exact h3
      · rw [(default_transaction_status_fields _).2.2.2.2.2.2.2.2]
        exact hmem
    constructor
    · rw [hB, (enforce_cheque_status_fields _).2.2.2.2.2.2.2.1,
        (default_transaction_status_fields _).2.2.2.2.2.2.2.1]
    · rw [hB, hEC, (default_transaction_status_fields _).2.2.2.2.2.2.2.2, if_neg hc]

theorem relocate_status_cheque_keep {r : CleanRow}
    (h : ¬(pyLower r.reference_number ∈ valid_cheque_statuses_lower ∧
      pyLower r.payment_method = "cheque")) :
    (relocate_status r).cheque_status = r.cheque_status := by
  unfold relocate_status
  split_ifs <;> rfl

theorem relocate_status_cheque_valid_keep {r : CleanRow}
    (hc : pyLower r.cheque_status ∈ valid_cheque_statuses_lower) :
    (relocate_status r).cheque_status = r.cheque_status := by
  unfold relocate_status
  split_ifs <;> rfl

/-! ## C1 — status values misfiled in the reference-number field -/

/-- C1 (amended): a reference-number value that case-folds to a settlement
status is relocated (when the explicit field is invalid) and the reference
number blanked; a value that case-folds to a cheque-clearance status is
treated the same way, but **only when the payment instrument is cheque**
(line 95's `and payment_method_lower == 'cheque'`).  In both cases a valid
explicit status is preferred and the reference value backfills only an
invalid field. -/
theorem C1_status_relocation (x : RawRow) :
    (pyLower (normCell x.reference_number) ∈ valid_transaction_statuses_lower →
      (cleanRow x).reference_number = "" ∧
      (cleanRow x).transaction_status =
        (if pyLower (normCell x.transaction_status) ∈ valid_transaction_statuses_lower
         then normCell x.transaction_status else pyLower (normCell x.reference_number))) ∧
    (pyLower (normCell x.reference_number) ∉ valid_transaction_statuses_lower →
      pyLower (normCell x.reference_number) ∈ valid_cheque_statuses_lower →
      pyLower (normCell x.payment_method) = "cheque" →
      (cleanRow x).reference_number = "" ∧
      (cleanRow x).cheque_status =
        (if pyLower (normCell x.cheque_status) ∈ valid_cheque_statuses_lower
         then normCell x.cheque_status else pyLower (normCell x.reference_number))) := by
  constructor
  · intro h
    have hr : pyLower (apply_cash_mask (preRow x)).reference_number ∈
        valid_transaction_statuses_lower := by
      rw [(apply_cash_mask_fields _).2.2.2.2.2.2.2.1]
      exact h
    have hs := steps_of_ref_trans (apply_cash_mask (preRow x)) hr
    refine ⟨hs.1, ?_⟩
    have h2 := hs.2
    rw [(apply_cash_mask_fields _).2.2.2.2.2.2.2.2,
      (apply_cash_mask_fields _).2.2.2.2.2.2.2.1] at h2
    exact h2
  · intro h1 h2 h3
    have hmaskid : apply_cash_mask (preRow x) = preRow x := by
      unfold apply_cash_mask
      rw [if_neg]
      intro hcontra
      have hcc : pyLower (normCell x.payment_method) = "cash" := hcontra
      rw [h3] at hcc
      exact absurd hcc (by decide)
    have hs := steps_of_ref_cheque (preRow x) h1 h2 h3
    constructor
    · show (enforce_cheque_status (default_transaction_status (relocate_status
        (apply_cash_mask (preRow x))))).reference_number = ""
      rw [hmaskid]
      exact hs.1
    · show (enforce_cheque_status (default_transaction_status (relocate_status
        (apply_cash_mask (preRow x))))).cheque_status = _
      rw [hmaskid]
      exact hs.2

/-- A cash row whose reference number is the cheque status `"bounced"`. -/
def exampleCashBouncedRefRow : RawRow where
  date := none
  person := some "X"
  amount := none
  type := none
  status := none
  description := none
  payment_method := some "cash"
  reference_number := some "bounced"
  cheque_status := none
  transaction_status := none

/-- Counterexample to C1 as stated: the reference number `"bounced"`
case-folds to a member of the cheque-clearance enumeration, yet on a cash
row the normalizer neither relocates it nor blanks the field — the output
reference number is still `"bounced"`. -/
theorem C1_counterexample :
    pyLower (normCell exampleCashBouncedRefRow.reference_number) ∈
      (valid_transaction_statuses_lower ++ valid_cheque_statuses_lower) ∧
      (clean_payments_data [exampleCashBouncedRefRow]).map
        (fun r => r.reference_number) = ["bounced"] := by
  decide

/-- The spec §8 example row: `"completed"` typed into the reference-number
field of a cash row. -/
def exampleSpecRow : RawRow where
  date := some "2024-03-01"
  person := some "Acme"
  amount := some "1500"
  type := some "paid_to_me"
  status := none
  description := none
  payment_method := some "cash"
  reference_number := some "completed"
  cheque_status := none
  transaction_status := some ""

/-- A cheque row whose reference number is `"Processing Done"` (mixed
case) and whose cheque status is invalid. -/
def exampleChequeRefRow : RawRow where
  date := none
  person := some "Y"
  amount := none
  type := none
  status := none
  description := none
  payment_method := some "cheque"
  reference_number := some "Processing Done"
  cheque_status := some "xx"
  transaction_status := none

/-- Concrete instantiation of `C1_status_relocation` on both branches:
the spec §8 example relocates `"completed"` into the settlement status,
and the cheque row relocates `"processing done"` into the clearance
status; both blank the reference number. -/
theorem C1_witness :
    ((cleanRow exampleSpecRow).reference_number = "" ∧
      (cleanRow exampleSpecRow).transaction_status = "completed") ∧
    ((cleanRow exampleChequeRefRow).reference_number = "" ∧
      (cleanRow exampleChequeRefRow).cheque_status = "processing done") := by
  constructor
  · have h := (C1_status_relocation exampleSpecRow).1 (by decide)
    refine ⟨h.1, ?_⟩
    rw [h.2]
    decide
  · have h := (C1_status_relocation exampleChequeRefRow).2 (by decide) (by decide) (by decide)
    refine ⟨h.1, ?_⟩
    rw [h.2]
    decide

/-! ## C4 — the cheque-clearance default -/

/-- C4 (amended): a cheque row whose clearance status is invalid or
missing **and whose reference number does not itself case-fold to a
clearance-status member** gets the default `"processing"` (the spec's
`in_clearing`); a cheque row with a valid clearance status keeps it.  (A
clearance status typed into the reference-number field is relocated first
and pre-empts the default.) -/
theorem C4_cheque_clearance_default (x : RawRow)
    (hpm : pyLower (normCell x.payment_method) = "cheque") :
    (pyLower (normCell x.cheque_status) ∉ valid_cheque_statuses_lower →
      pyLower (normCell x.reference_number) ∉ valid_cheque_statuses_lower →
      (cleanRow x).cheque_status = "processing") ∧
    (pyLower (normCell x.cheque_status) ∈ valid_cheque_statuses_lower →
      (cleanRow x).cheque_status = normCell x.cheque_status) := by
  have hmaskid : apply_cash_mask (preRow x) = preRow x := by
    unfold apply_cash_mask
    rw [if_neg]
    intro hcontra
    have hcc : pyLower (normCell x.payment_method) = "cash" := hcontra
    rw [hpm] at hcc
    exact absurd hcc (by decide)
  constructor
  · intro hch href
    show (enforce_cheque_status (default_transaction_status (relocate_status
      (apply_cash_mask (preRow x))))).cheque_status = "processing"
    rw [hmaskid]
    have hrel : (relocate_status (preRow x)).cheque_status = (preRow x).cheque_status := by
      apply relocate_status_cheque_keep
      intro hcontra
      exact href hcontra.1
    have hpm2 : pyLower (default_transaction_status (relocate_status (preRow x))).payment_method
        = "cheque" := by
      rw [(default_transaction_status_fields _).2.2.2.2.2.2.1,
        (relocate_status_fields _).2.2.2.2.2.2]
      exact hpm
    have hch2 : pyLower (default_transaction_status (relocate_status (preRow x))).cheque_status
        ∉ valid_cheque_statuses_lower := by
      rw [(default_transaction_status_fields _).2.2.2.2.2.2.2.2, hrel]
      exact hch
    rw [enforce_cheque_status_default hpm2 hch2]
  · intro hch
    show (enforce_cheque_status (default_transaction_status (relocate_status
      (apply_cash_mask (preRow x))))).cheque_status = normCell x.cheque_status
    rw [hmaskid]
    have hrel : (relocate_status (preRow x)).cheque_status = (preRow x).cheque_status :=
      relocate_status_cheque_valid_keep hch
    have hpm2 : pyLower (default_transaction_status (relocate_status (preRow x))).payment_method
        = "cheque" := by
      rw [(default_transaction_status_fields _).2.2.2.2.2.2.1,
        (relocate_status_fields _).2.2.2.2.2.2]
      exact hpm
    have hch2 : pyLower (default_transaction_status (relocate_status (preRow x))).cheque_status
        ∈ valid_cheque_statuses_lower := by
      rw [(default_transaction_status_fields _).2.2.2.2.2.2.2.2, hrel]
      exact hch
    rw [enforce_cheque_status_keep hpm2 hch2,
      (default_transaction_status_fields _).2.2.2.2.2.2.2.2, hrel]
    rfl

/-- A cheque row with a missing clearance status whose reference number is
the clearance status `"bounced"`. -/
def exampleChequeBackfillRow : RawRow where
  date := none
  person := some "V"
  amount := none
  type := none
  status := none
  description := none
  payment_method := some "cheque"
  reference_number := some "bounced"
  cheque_status := some ""
  transaction_status := none

/-- Counterexample to C4 as stated: a cheque row with a missing clearance
status does **not** get the default — the clearance status is backfilled
from the reference-number repair, giving `"bounced"` instead of the
default `"processing"` (the spec's `in_clearing`). -/
theorem C4_counterexample :
    pyLower (normCell exampleChequeBackfillRow.payment_method) = "cheque" ∧
      pyLower (normCell exampleChequeBackfillRow.cheque_status) ∉
        valid_cheque_statuses_lower ∧
      (cleanRow exampleChequeBackfillRow).cheque_status = "bounced" ∧
      (cleanRow exampleChequeBackfillRow).cheque_status ≠ "processing" := by
  decide

/-- A cheque row with an invalid clearance status and a harmless reference
number. -/
def exampleChequeInvalidRow : RawRow where
  date := none
  person := some "Z"
  amount := none
  type := none
  status := none
  description := none
  payment_method := some "cheque"
  reference_number := some "r7"
  cheque_status := some "???"
  transaction_status := none

/-- A cheque row with the valid clearance status `"bounced"`. -/
def exampleChequeValidRow : RawRow where
  date := none
  person := some "W"
  amount := none
  type := none
  status := none
  description := none
  payment_method := some "cheque"
  reference_number := some "r8"
  cheque_status := some "bounced"
  transaction_status := none

/-- Concrete instantiation of `C4_cheque_clearance_default` on both
branches: the invalid clearance status defaults to `"processing"`, the
valid one is kept. -/
theorem C4_witness :
    (cleanRow exampleChequeInvalidRow).cheque_status = "processing" ∧
      (cleanRow exampleChequeValidRow).cheque_status = "bounced" := by
  constructor
  · exact (C4_cheque_clearance_default exampleChequeInvalidRow (by decide)).1
      (by decide) (by decide)
  · have h := (C4_cheque_clearance_default exampleChequeValidRow (by decide)).2 (by decide)
    rw [h]
    decide

/-! ## C5 — exactly the fully-blank rows are dropped -/

/-- C5: (i) the output never has more rows than the input; (ii) every
output row is non-blank (some parsed date, or a non-empty counterparty, or
a non-zero amount); (iii) every input row whose cleaned form is non-blank
is kept.  Together: the line-109 filter discards exactly the fully-blank
rows. -/
theorem C5_blank_rows_dropped (df : List RawRow) :
    (clean_payments_data df).length ≤ df.length ∧
    (∀ r ∈ clean_payments_data df, ¬(r.date = none ∧ r.person = "" ∧ r.amount = 0)) ∧
    (∀ x ∈ df, is_blank (cleanRow x) = false → cleanRow x ∈ clean_payments_data df) := by
  rcases df with _ | ⟨y, ys⟩
  · refine ⟨le_refl _, ?_, ?_⟩
    · intro r hr
      simp [clean_payments_data] at hr
    · intro x hx
      simp at hx
  · refine ⟨?_, ?_, ?_⟩
    · rw [clean_payments_data, if_neg (by simp)]
      calc (((y :: ys).map cleanRow).filter (fun r => !is_blank r)).length ≤
          ((y :: ys).map cleanRow).length := List.length_filter_le _ _
        _ = (y :: ys).length := List.length_map _ _
    · intro r hr
      rw [clean_payments_data, if_neg (by simp)] at hr
      have hp := List.of_mem_filter hr
      intro hcontra
      rw [← is_blank_iff] at hcontra
      rw [hcontra] at hp
      simp at hp
    · intro x hx hb
      rw [clean_payments_data, if_neg (by simp)]
      exact List.mem_filter.mpr ⟨List.mem_map_of_mem _ hx, by simp [hb]⟩

/-- A fully blank raw row: empty date, empty person, zero amount. -/
def exampleBlankRow : RawRow where
  date := some ""
  person := some ""
  amount := some "0"
  type := none
  status := none
  description := none
  payment_method := none
  reference_number := none
  cheque_status := none
  transaction_status := none

/-- The spec's retained example: empty date but person `"Bob"`. -/
def exampleBobRow : RawRow where
  date := some ""
  person := some "Bob"
  amount := some "0"
  type := none
  status := none
  description := none
  payment_method := none
  reference_number := none
  cheque_status := none
  transaction_status := none

/-- Concrete instantiation of `C5_blank_rows_dropped` on the spec's
example ledger: the Bob row is retained, and the output of the two-row
ledger has at most two rows (in fact the blank row is gone). -/
theorem C5_witness :
    is_blank (cleanRow exampleBobRow) = false ∧
      cleanRow exampleBobRow ∈ clean_payments_data [exampleBlankRow, exampleBobRow] ∧
      (clean_payments_data [exampleBlankRow, exampleBobRow]).length ≤
        ([exampleBlankRow, exampleBobRow] : List RawRow).length :=
  ⟨by decide,
    (C5_blank_rows_dropped [exampleBlankRow, exampleBobRow]).2.2 exampleBobRow
      (by decide) (by decide),
    (C5_blank_rows_dropped [exampleBlankRow, exampleBobRow]).1⟩

/-! ## C9 — totality and the zero default for unparseable amounts -/

/-- C9 (amended): the normalizer is a total function; a row whose amount
fails numeric parse gets amount `0` and the amount field is kept; the row
itself is kept in the output unless it is fully blank (no date, no
counterparty, zero amount), in which case line 109 drops it. -/
theorem C9_unparseable_amount_zero (x : RawRow) (df : List RawRow) (hx : x ∈ df)
    (hparse : parseAmount (normCell x.amount) = none) :
    (cleanRow x).amount = 0 ∧
      (is_blank (cleanRow x) = false → cleanRow x ∈ clean_payments_data df) := by
  constructor
  · rw [cleanRow_amount, hparse]
    rfl
  · intro hb
    have hne : df.isEmpty = false := by
      cases df with
      | nil => simp at hx
      | cons a b => rfl
    rw [clean_payments_data, if_neg (by simp [hne])]
    exact List.mem_filter.mpr ⟨List.mem_map_of_mem _ hx, by simp [hb]⟩

/-- A row that is blank except for an unparseable amount text. -/
def exampleBadAmountRow : RawRow where
  date := some ""
  person := some ""
  amount := some "abc"
  type := none
  status := none
  description := none
  payment_method := none
  reference_number := none
  cheque_status := none
  transaction_status := none

/-- Counterexample to C9 as stated: this row's amount fails numeric parse,
and the row is *not* kept — the zero substitute makes it fully blank and
line 109 drops it, so "the row ... [is] kept" is false in general. -/
theorem C9_counterexample :
    parseAmount (normCell exampleBadAmountRow.amount) = none ∧
      clean_payments_data [exampleBadAmountRow] = [] := by
  decide

/-- The same unparseable amount on a non-blank row. -/
def exampleBadAmountKeptRow : RawRow where
  date := some ""
  person := some "Bob"
  amount := some "12x"
  type := none
  status := none
  description := none
  payment_method := none
  reference_number := none
  cheque_status := none
  transaction_status := none

/-- Concrete instantiation of `C9_unparseable_amount_zero`: the `"12x"`
amount becomes `0` and the row (non-blank thanks to its counterparty) is
kept. -/
theorem C9_witness :
    (cleanRow exampleBadAmountKeptRow).amount = 0 ∧
      cleanRow exampleBadAmountKeptRow ∈ clean_payments_data [exampleBadAmountKeptRow] :=
  ⟨(C9_unparseable_amount_zero exampleBadAmountKeptRow [exampleBadAmountKeptRow]
      (by decide) (by decide)).1,
    (C9_unparseable_amount_zero exampleBadAmountKeptRow [exampleBadAmountKeptRow]
      (by decide) (by decide)).2 (by decide)⟩

/-! ## C7 — empty-ledger aggregation and absent cross-tab combinations -/

/-- C7: aggregation over the empty ledger yields zero for every metric,
and any direction × instrument combination with no matching rows is
reported as the value `0` (never omitted: the `Totals` record always
carries all four cells). -/
theorem C7_empty_and_absent_zero :
    generate_totals [] = ⟨0, 0, 0, 0, 0, 0, 0, 0, 0⟩ ∧
      ∀ (df : List CleanRow) (t m : String),
        (∀ r ∈ df, ¬(pyLower r.type = t ∧ pyLower r.payment_method = m)) →
        crosstab_cell df t m = 0 := by
  constructor
  · simp [generate_totals, amount_sum, crosstab_cell]
  · intro df t m h
    rw [crosstab_cell]
    split_ifs with hg
    · rw [amount_sum]
      have hnil : df.filter
          (fun r => pyLower r.type == t && pyLower r.payment_method == m) = [] := by
        apply List.filter_eq_nil_iff.mpr
        intro r hr
        simp only [Bool.and_eq_true, beq_iff_eq, not_and]
        intro h1 h2
        exact h r hr ⟨h1, h2⟩
      rw [hnil]
      rfl
    · rfl

/-- A cleaned cash `paid_to_me` row. -/
def exampleCleanCash : CleanRow where
  date := some ⟨2024, 3, 1⟩
  person := "Acme"
  amount := 1500
  type := "paid_to_me"
  status := "completed"
  description := ""
  payment_method := "cash"
  reference_number := ""
  cheque_status := ""
  transaction_status := "completed"

/-- Concrete instantiation of `C7_empty_and_absent_zero`: in a ledger with
one cash `paid_to_me` row the absent `i_paid`/`cheque` combination is
reported as `0`. -/
theorem C7_witness :
    crosstab_cell [exampleCleanCash] "i_paid" "cheque" = 0 :=
  C7_empty_and_absent_zero.2 [exampleCleanCash] "i_paid" "cheque" (by decide)

/-! ## Cells surviving the CSV write/read round trip -/

theorem stripped_of_mem_trans {s : String}
    (h : s ∈ valid_transaction_statuses_lower) : pyStrip s = s := by
  simp only [valid_transaction_statuses_lower, List.mem_cons,
    List.not_mem_nil, or_false] at h
  rcases h with rfl | rfl
  · decide
  · decide

theorem stripped_of_mem_cheque {s : String}
    (h : s ∈ valid_cheque_statuses_lower) : pyStrip s = s := by
  simp only [valid_cheque_statuses_lower, List.mem_cons,
    List.not_mem_nil, or_false] at h
  rcases h with rfl | rfl | rfl | rfl
  · decide
  · decide
  · decide
  · decide

/-- The text normalizer always yields a stripped string. -/
theorem normCell_stripped (o : Option String) : pyStrip (normCell o) = normCell o := by
  cases o with
  | none => rfl
  | some s =>
    simp only [normCell]
    split_ifs
    · rfl
    · exact stripped_pyStrip s

/-- A stripped, non-marker string passes through the text normalizer
unchanged. -/
theorem normCell_of_clean {s : String} (h1 : s ≠ "nan") (h2 : s ≠ "None")
    (h3 : pyStrip s = s) : normCell (some s) = s := by
  simp only [normCell]
  rw [if_neg (not_or.mpr ⟨h1, h2⟩)]
  exact h3

theorem mem_amountToChars {q : ℚ} {c : Char} (hc : c ∈ amountToChars q) :
    isDigitChar c = true ∨ c = '-' ∨ c = '.' := by
  unfold amountToChars at hc
  simp only [List.mem_append, List.mem_cons] at hc
  rcases hc with (hc | hc) | (hc | hc)
  · split_ifs at hc
    · simp only [List.mem_singleton] at hc
      exact Or.inr (Or.inl hc)
    · simp at hc
  · exact Or.inl (natToDigits_all_digits _ c hc)
  · exact Or.inr (Or.inr hc)
  · exact Or.inl (padZeros_all_digits (natToDigits_all_digits _) c hc)

theorem amountToChars_no_space (q : ℚ) :
    ∀ c ∈ amountToChars q, isPySpace c = false := by
  intro c hc
  rcases mem_amountToChars hc with h | h | h
  · exact digit_not_space h
  · subst h; decide
  · subst h; decide

theorem amountToString_stripped (q : ℚ) :
    pyStrip (amountToString q) = amountToString q := by
  unfold amountToString pyStrip
  rw [stripChars_of_no_space (amountToChars_no_space q)]

theorem amountToString_ne_nan (q : ℚ) : amountToString q ≠ "nan" := by
  intro he
  have hdata : amountToChars q = "nan".data := congrArg String.data he
  have hm : 'n' ∈ amountToChars q := by
    rw [hdata]
    decide
  rcases mem_amountToChars hm with h | h | h
  · exact absurd h (by decide)
  · exact absurd h (by decide)
  · exact absurd h (by decide)

theorem amountToString_ne_None (q : ℚ) : amountToString q ≠ "None" := by
  intro he
  have hdata : amountToChars q = "None".data := congrArg String.data he
  have hm : 'N' ∈ amountToChars q := by
    rw [hdata]
    decide
  rcases mem_amountToChars hm with h | h | h
  · exact absurd h (by decide)
  · exact absurd h (by decide)
  · exact absurd h (by decide)

/-- Reading back a printed amount cell recovers the amount. -/
theorem amountCell_roundtrip {q : ℚ} (hq : q.den ∣ 10 ^ q.den) :
    (parseAmount (normCell (some (amountToString q)))).getD 0 = q := by
  rw [normCell_of_clean (amountToString_ne_nan q) (amountToString_ne_None q)
    (amountToString_stripped q)]
  rw [show parseAmount (amountToString q) = some q from amount_roundtrip hq]
  rfl

theorem mem_dateToChars {d : PDate} {c : Char} (hc : c ∈ dateToChars d) :
    isDigitChar c = true ∨ c = '-' := by
  unfold dateToChars at hc
  simp only [List.mem_append, List.mem_cons] at hc
  rcases hc with hc | hc | hc | hc | hc
  · exact Or.inl (padZeros_all_digits (natToDigits_all_digits _) c hc)
  · exact Or.inr hc
  · exact Or.inl (padZeros_all_digits (natToDigits_all_digits _) c hc)
  · exact Or.inr hc
  · exact Or.inl (padZeros_all_digits (natToDigits_all_digits _) c hc)

theorem dateToChars_no_space (d : PDate) :
    ∀ c ∈ dateToChars d, isPySpace c = false := by
  intro c hc
  rcases mem_dateToChars hc with h | h
  · exact digit_not_space h
  · subst h; decide

theorem dateString_stripped (d : PDate) :
    pyStrip (⟨dateToChars d⟩ : String) = (⟨dateToChars d⟩ : String) := by
  unfold pyStrip
  rw [stripChars_of_no_space (dateToChars_no_space d)]

theorem dateString_ne_nan (d : PDate) : (⟨dateToChars d⟩ : String) ≠ "nan" := by
  intro he
  have hdata : dateToChars d = "nan".data := congrArg String.data he
  have hm : 'n' ∈ dateToChars d := by
    rw [hdata]
    decide
  rcases mem_dateToChars hm with h | h
  · exact absurd h (by decide)
  · exact absurd h (by decide)

theorem dateString_ne_None (d : PDate) : (⟨dateToChars d⟩ : String) ≠ "None" := by
  intro he
  have hdata : dateToChars d = "None".data := congrArg String.data he
  have hm : 'N' ∈ dateToChars d := by
    rw [hdata]
    decide
  rcases mem_dateToChars hm with h | h
  · exact absurd h (by decide)
  · exact absurd h (by decide)

/-- The date parser only produces dates within its validity bounds. -/
theorem parseDateChars_valid {cs : List Char} {d : PDate}
    (h : parseDateChars cs = some d) : d.Valid := by
  unfold parseDateChars at h
  split at h
  · split at h
    · dsimp only at h
      split at h
      · next hv =>
        simp only [Option.some.injEq] at h
        rw [← h]
        exact hv
      · simp at h
    · simp at h
  · simp at h

/-- Reading back a printed date cell recovers the date. -/
theorem dateCell_roundtrip {od : Option PDate}
    (h : ∀ d, od = some d → d.Valid) :
    parseDate (normCell (some (⟨dateCellChars od⟩ : String))) = od := by
  cases od with
  | none => rfl
  | some d =>
    have hv := h d rfl
    show parseDate (normCell (some (⟨dateToChars d⟩ : String))) = some d
    rw [normCell_of_clean (dateString_ne_nan d) (dateString_ne_None d)
      (dateString_stripped d)]
    exact date_roundtrip hv

/-! ## Invariants of the cleaning pipeline's output -/

theorem cleanRow_type (x : RawRow) : (cleanRow x).type = normCell x.type := by
  unfold cleanRow
  rw [(enforce_cheque_status_fields _).2.2.2.1, (default_transaction_status_fields _).2.2.2.1,
    (relocate_status_fields _).2.2.2.1, (apply_cash_mask_fields _).2.2.2.1]
  rfl

theorem cleanRow_status (x : RawRow) : (cleanRow x).status = normCell x.status := by
  unfold cleanRow
  rw [(enforce_cheque_status_fields _).2.2.2.2.1,
    (default_transaction_status_fields _).2.2.2.2.1,
    (relocate_status_fields _).2.2.2.2.1, (apply_cash_mask_fields _).2.2.2.2.1]
  rfl

theorem cleanRow_description (x : RawRow) :
    (cleanRow x).description = normCell x.description := by
  unfold cleanRow
  rw [(enforce_cheque_status_fields _).2.2.2.2.2.1,
    (default_transaction_status_fields _).2.2.2.2.2.1,
    (relocate_status_fields _).2.2.2.2.2.1, (apply_cash_mask_fields _).2.2.2.2.2.1]
  rfl

theorem cleanRow_reference_number_stripped (x : RawRow) :
    pyStrip (cleanRow x).reference_number = (cleanRow x).reference_number := by
  unfold cleanRow
  rw [(enforce_cheque_status_fields _).2.2.2.2.2.2.2.1,
    (default_transaction_status_fields _).2.2.2.2.2.2.2.1]
  have h : pyStrip (apply_cash_mask (preRow x)).reference_number =
      (apply_cash_mask (preRow x)).reference_number := by
    rw [(apply_cash_mask_fields _).2.2.2.2.2.2.2.1]
    exact normCell_stripped x.reference_number
  unfold relocate_status
  split_ifs <;> first | exact (rfl : pyStrip "" = "") | exact h

theorem cleanRow_transaction_status_stripped (x : RawRow) :
    pyStrip (cleanRow x).transaction_status = (cleanRow x).transaction_status := by
  unfold cleanRow
  rw [(enforce_cheque_status_fields _).2.2.2.2.2.2.2.2]
  have h0 : pyStrip (apply_cash_mask (preRow x)).transaction_status =
      (apply_cash_mask (preRow x)).transaction_status := by
    rw [(apply_cash_mask_fields _).2.2.2.2.2.2.2.2]
    exact normCell_stripped x.transaction_status
  have h1 : pyStrip (relocate_status (apply_cash_mask (preRow x))).transaction_status =
      (relocate_status (apply_cash_mask (preRow x))).transaction_status := by
    unfold relocate_status
    split_ifs with hr1 hr2
    · exact h0
    · exact stripped_of_mem_trans ((pyLower_mem_trans hr1).symm ▸ hr1)
    · exact h0
    · exact h0
    · exact h0
  unfold default_transaction_status
  split_ifs
  · exact h1
  · exact (by decide : pyStrip "completed" = "completed")

theorem cleanRow_cheque_status_stripped (x : RawRow) :
    pyStrip (cleanRow x).cheque_status = (cleanRow x).cheque_status := by
  have h0 : pyStrip (apply_cash_mask (preRow x)).cheque_status =
      (apply_cash_mask (preRow x)).cheque_status := by
    unfold apply_cash_mask
    split_ifs
    · exact (rfl : pyStrip "" = "")
    · exact normCell_stripped x.cheque_status
  have h1 : pyStrip (relocate_status (apply_cash_mask (preRow x))).cheque_status =
      (relocate_status (apply_cash_mask (preRow x))).cheque_status := by
    unfold relocate_status
    split_ifs with hr1 hr2 hr3 hr4
    · exact h0
    · exact h0
    · exact h0
    · exact stripped_of_mem_cheque ((pyLower_mem_cheque hr3.1).symm ▸ hr3.1)
    · exact h0
  unfold cleanRow
  have hDc : (default_transaction_status (relocate_status (apply_cash_mask (preRow x)))).cheque_status =
      (relocate_status (apply_cash_mask (preRow x))).cheque_status :=
    (default_transaction_status_fields _).2.2.2.2.2.2.2.2
  by_cases hpm : pyLower (default_transaction_status (relocate_status
      (apply_cash_mask (preRow x)))).payment_method = "cheque"
  · by_cases hcv : pyLower (default_transaction_status (relocate_status
        (apply_cash_mask (preRow x)))).cheque_status ∈ valid_cheque_statuses_lower
    · rw [enforce_cheque_status_keep hpm hcv, hDc]
      exact h1
    · rw [enforce_cheque_status_default hpm hcv]
      exact (by decide : pyStrip "processing" = "processing")
  · rw [enforce_cheque_status_blank hpm]
    exact (rfl : pyStrip "" = "")

theorem cleanRow_transaction_status_valid (x : RawRow) :
    pyLower (cleanRow x).transaction_status ∈ valid_transaction_statuses_lower := by
  unfold cleanRow
  rw [(enforce_cheque_status_fields _).2.2.2.2.2.2.2.2]
  unfold default_transaction_status
  split_ifs with h
  · exact h
  · exact (by decide : pyLower "completed" ∈ valid_transaction_statuses_lower)

theorem cleanRow_reference_number_safe (x : RawRow) :
    pyLower (cleanRow x).reference_number ∉ valid_transaction_statuses_lower ∧
    ¬(pyLower (cleanRow x).reference_number ∈ valid_cheque_statuses_lower ∧
      pyLower (cleanRow x).payment_method = "cheque") := by
  rw [cleanRow_payment_method]
  unfold cleanRow
  rw [(enforce_cheque_status_fields _).2.2.2.2.2.2.2.1,
    (default_transaction_status_fields _).2.2.2.2.2.2.2.1]
  have hpm : (apply_cash_mask (preRow x)).payment_method = normCell x.payment_method :=
    (apply_cash_mask_fields _).2.2.2.2.2.2.1
  unfold relocate_status
  split_ifs with h1 h2 h3 h4
  · exact ⟨(by decide : pyLower "" ∉ valid_transaction_statuses_lower),
      fun hc => absurd hc.1 (by decide : pyLower "" ∉ valid_cheque_statuses_lower)⟩
  · exact ⟨(by decide : pyLower "" ∉ valid_transaction_statuses_lower),
      fun hc => absurd hc.1 (by decide : pyLower "" ∉ valid_cheque_statuses_lower)⟩
  · exact ⟨(by decide : pyLower "" ∉ valid_transaction_statuses_lower),
      fun hc => absurd hc.1 (by decide : pyLower "" ∉ valid_cheque_statuses_lower)⟩
  · exact ⟨(by decide : pyLower "" ∉ valid_transaction_statuses_lower),
      fun hc => absurd hc.1 (by decide : pyLower "" ∉ valid_cheque_statuses_lower)⟩
  · exact ⟨h1, fun hc => h3 ⟨hc.1, by rw [hpm]; exact hc.2⟩⟩

theorem cleanRow_cheque_status_post (x : RawRow) :
    (pyLower (cleanRow x).payment_method = "cheque" →
      pyLower (cleanRow x).cheque_status ∈ valid_cheque_statuses_lower) ∧
    (pyLower (cleanRow x).payment_method ≠ "cheque" →
      (cleanRow x).cheque_status = "") := by
  unfold cleanRow enforce_cheque_status
  split_ifs with h1 h2
  · exact ⟨fun _ => h2, fun hb => absurd h1 hb⟩
  · exact ⟨fun _ => (by decide : pyLower "processing" ∈ valid_cheque_statuses_lower),
      fun hb => absurd h1 hb⟩
  · exact ⟨fun hc => absurd hc h1, fun _ => rfl⟩

theorem cleanRow_amount_dvd (x : RawRow) :
    (cleanRow x).amount.den ∣ 10 ^ (cleanRow x).amount.den := by
  rw [cleanRow_amount]
  rcases hp : parseAmount (normCell x.amount) with _ | q
  · decide
  · simp only [Option.getD_some]
    exact parse_den_dvd hp

theorem cleanRow_date_valid (x : RawRow) :
    ∀ d, (cleanRow x).date = some d → d.Valid := by
  rw [cleanRow_date]
  intro d hd
  exact parseDateChars_valid hd

/-! ## C6 — idempotence of normalization -/

/-- No text field of the row is the literal missing-value marker `"nan"`
or `"None"` (which line 77 would replace by `""` on the next pass). -/
def no_missing_markers (r : CleanRow) : Prop :=
  (r.person ≠ "nan" ∧ r.person ≠ "None") ∧
  (r.type ≠ "nan" ∧ r.type ≠ "None") ∧
  (r.status ≠ "nan" ∧ r.status ≠ "None") ∧
  (r.description ≠ "nan" ∧ r.description ≠ "None") ∧
  (r.reference_number ≠ "nan" ∧ r.reference_number ≠ "None") ∧
  (r.payment_method ≠ "nan" ∧ r.payment_method ≠ "None")

instance (r : CleanRow) : Decidable (no_missing_markers r) := by
  unfold no_missing_markers
  infer_instance

theorem trans_ne_markers {r : CleanRow}
    (h : pyLower r.transaction_status ∈ valid_transaction_statuses_lower) :
    r.transaction_status ≠ "nan" ∧ r.transaction_status ≠ "None" := by
  constructor
  · intro he
    rw [he] at h
    exact absurd h (by decide)
  · intro he
    rw [he] at h
    exact absurd h (by decide)

theorem cheque_ne_markers {r : CleanRow}
    (hcv : pyLower r.payment_method = "cheque" →
      pyLower r.cheque_status ∈ valid_cheque_statuses_lower)
    (hcb : pyLower r.payment_method ≠ "cheque" → r.cheque_status = "") :
    r.cheque_status ≠ "nan" ∧ r.cheque_status ≠ "None" := by
  by_cases hpm : pyLower r.payment_method = "cheque"
  · have h := hcv hpm
    constructor
    · intro he
      rw [he] at h
      exact absurd h (by decide)
    · intro he
      rw [he] at h
      exact absurd h (by decide)
  · rw [hcb hpm]
    exact ⟨by decide, by decide⟩

theorem update_cheque_eq {r : CleanRow} (h : r.cheque_status = "") :
    ({ r with cheque_status := "" } : CleanRow) = r := by
  rcases r with ⟨rd, rp, ra, rt, rs, rde, rpm, rrn, rcs, rts⟩
  simp only at h
  subst h
  rfl

/-- A fully-normalized, marker-free row is a fixed point of the cleaning
pipeline composed with the CSV write/read round trip. -/
theorem cleanRow_toCSVRow_fixed (r : CleanRow)
    (hsp : pyStrip r.person = r.person) (hst : pyStrip r.type = r.type)
    (hss : pyStrip r.status = r.status)
    (hsde : pyStrip r.description = r.description)
    (hspm : pyStrip r.payment_method = r.payment_method)
    (hsr : pyStrip r.reference_number = r.reference_number)
    (hsc : pyStrip r.cheque_status = r.cheque_status)
    (hstr : pyStrip r.transaction_status = r.transaction_status)
    (htv : pyLower r.transaction_status ∈ valid_transaction_statuses_lower)
    (hcv : pyLower r.payment_method = "cheque" →
      pyLower r.cheque_status ∈ valid_cheque_statuses_lower)
    (hcb : pyLower r.payment_method ≠ "cheque" → r.cheque_status = "")
    (hrnt : pyLower r.reference_number ∉ valid_transaction_statuses_lower)
    (hrnc : ¬(pyLower r.reference_number ∈ valid_cheque_statuses_lower ∧
      pyLower r.payment_method = "cheque"))
    (hdvd : r.amount.den ∣ 10 ^ r.amount.den)
    (hdv : ∀ d, r.date = some d → d.Valid)
    (hm : no_missing_markers r) :
    cleanRow (toCSVRow r) = r := by
  have htm := trans_ne_markers htv
  have hcm := cheque_ne_markers hcv hcb
  have h1 : normCell (some r.person) = r.person :=
    normCell_of_clean hm.1.1 hm.1.2 hsp
  have h2 : normCell (some r.type) = r.type :=
    normCell_of_clean hm.2.1.1 hm.2.1.2 hst
  have h3 : normCell (some r.status) = r.status :=
    normCell_of_clean hm.2.2.1.1 hm.2.2.1.2 hss
  have h4 : normCell (some r.description) = r.description :=
    normCell_of_clean hm.2.2.2.1.1 hm.2.2.2.1.2 hsde
  have h5 : normCell (some r.reference_number) = r.reference_number :=
    normCell_of_clean hm.2.2.2.2.1.1 hm.2.2.2.2.1.2 hsr
  have h6 : normCell (some r.payment_method) = r.payment_method :=
    normCell_of_clean hm.2.2.2.2.2.1 hm.2.2.2.2.2.2 hspm
  have h7 : normCell (some r.transaction_status) = r.transaction_status :=
    normCell_of_clean htm.1 htm.2 hstr
  have h8 : normCell (some r.cheque_status) = r.cheque_status :=
    normCell_of_clean hcm.1 hcm.2 hsc
  have h9 : (parseAmount (normCell (some (amountToString r.amount)))).getD 0 = r.amount :=
    amountCell_roundtrip hdvd
  have h10 : parseDate (normCell (some (⟨dateCellChars r.date⟩ : String))) = r.date :=
    dateCell_roundtrip hdv
  have hpre : preRow (toCSVRow r) = r := by
    unfold preRow toCSVRow
    rcases r with ⟨rd, rp, ra, rt, rs, rde, rpm, rrn, rcs, rts⟩
    simp only at h1 h2 h3 h4 h5 h6 h7 h8 h9 h10
    simp only [CleanRow.mk.injEq]
    exact ⟨h10, h1, h9, h2, h3, h4, h6, h5, h8, h7⟩
  have hmask : apply_cash_mask r = r := by
    unfold apply_cash_mask
    split_ifs with h
    · have hne : pyLower r.payment_method ≠ "cheque" := by
        rw [h]
        decide
      exact update_cheque_eq (hcb hne)
    · rfl
  have hrel : relocate_status r = r := by
    unfold relocate_status
    rw [if_neg hrnt, if_neg hrnc]
  have hdts : default_transaction_status r = r := default_transaction_status_keep htv
  have henf : enforce_cheque_status r = r := by
    by_cases hpm : pyLower r.payment_method = "cheque"
    · exact enforce_cheque_status_keep hpm (hcv hpm)
    · rw [enforce_cheque_status_blank hpm]
      exact update_cheque_eq (hcb hpm)
  show enforce_cheque_status (default_transaction_status (relocate_status
    (apply_cash_mask (preRow (toCSVRow r))))) = r
  rw [hpre, hmask, hrel, hdts, henf]

theorem clean_eq_filter (df : List RawRow) (h : df ≠ []) :
    clean_payments_data df = (df.map cleanRow).filter (fun r => !is_blank r) := by
  rw [clean_payments_data, if_neg (by simp [List.isEmpty_iff, h])]

/-- C6 (amended): normalization is idempotent on every ledger whose
normalized rows contain no text field equal to the literal `"nan"` or
`"None"`: re-applying `clean_payments_data` to its own output (through the
CSV write/read round trip) returns the same ledger, row for row. -/
theorem C6_idempotent_on_marker_free (df : List RawRow)
    (h : ∀ r ∈ clean_payments_data df, no_missing_markers r) :
    clean_payments_data ((clean_payments_data df).map toCSVRow) =
      clean_payments_data df := by
  by_cases hL : clean_payments_data df = []
  · rw [hL]
    rfl
  · have hdf_ne : df ≠ [] := by
      intro he
      rw [he] at hL
      exact hL rfl
    have hfilter : clean_payments_data df =
        (df.map cleanRow).filter (fun r => !is_blank r) :=
      clean_eq_filter df hdf_ne
    have hid : ∀ r ∈ clean_payments_data df, cleanRow (toCSVRow r) = r := by
      intro r hr
      have hrr := hr
      rw [hfilter] at hrr
      obtain ⟨hmem, _⟩ := List.mem_filter.mp hrr
      obtain ⟨x, _, rfl⟩ := List.mem_map.mp hmem
      apply cleanRow_toCSVRow_fixed
      · rw [cleanRow_person]
        exact normCell_stripped _
      · rw [cleanRow_type]
        exact normCell_stripped _
      · rw [cleanRow_status]
        exact normCell_stripped _
      · rw [cleanRow_description]
        exact normCell_stripped _
      · rw [cleanRow_payment_method]
        exact normCell_stripped _
      · exact cleanRow_reference_number_stripped x
      · exact cleanRow_cheque_status_stripped x
      · exact cleanRow_transaction_status_stripped x
      · exact cleanRow_transaction_status_valid x
      · exact (cleanRow_cheque_status_post x).1
      · exact (cleanRow_cheque_status_post x).2
      · exact (cleanRow_reference_number_safe x).1
      · exact (cleanRow_reference_number_safe x).2
      · exact cleanRow_amount_dvd x
      · exact cleanRow_date_valid x
      · exact h _ hr
    have hmapne : (clean_payments_data df).map toCSVRow ≠ [] := by
      simp [hL]
    have hmaps : ((clean_payments_data df).map toCSVRow).map cleanRow =
        clean_payments_data df := by
      rw [List.map_map, Function.comp_def, List.map_congr_left hid]
      exact List.map_id _
    rw [clean_eq_filter _ hmapne, hmaps]
    apply List.filter_eq_self.mpr
    intro r hr
    rw [hfilter] at hr
    exact (List.mem_filter.mp hr).2

/-- A row whose person cell is `" nan"`: the first pass strips it to the
literal `"nan"`, which the second pass replaces by `""`. -/
def exampleNanPersonRow : RawRow where
  date := none
  person := some " nan"
  amount := none
  type := none
  status := none
  description := none
  payment_method := none
  reference_number := none
  cheque_status := none
  transaction_status := none

/-- The CSV image of the normalized `" nan"`-person row. -/
def exampleNanPersonRoundtrip : RawRow where
  date := some ""
  person := some "nan"
  amount := some "0.0"
  type := some ""
  status := some ""
  description := some ""
  payment_method := some ""
  reference_number := some ""
  cheque_status := some ""
  transaction_status := some "completed"

/-- Counterexample to C6 as stated: normalizing this one-row ledger keeps
the row (person `"nan"`), but normalizing the normalized ledger drops it
(person becomes `""` and the row is fully blank) — the output is not the
same ledger even modulo row order. -/
theorem C6_counterexample :
    clean_payments_data [exampleNanPersonRow] ≠ [] ∧
      clean_payments_data ((clean_payments_data [exampleNanPersonRow]).map
        toCSVRow) = [] := by
  refine ⟨by decide, ?_⟩
  have hmap : (clean_payments_data [exampleNanPersonRow]).map toCSVRow =
      [exampleNanPersonRoundtrip] := by decide
  rw [hmap]
  have hamt : (cleanRow exampleNanPersonRoundtrip).amount = 0 := by
    rw [cleanRow_amount,
      show exampleNanPersonRoundtrip.amount = some (amountToString 0) from by decide]
    exact amountCell_roundtrip (by decide)
  have hper : (cleanRow exampleNanPersonRoundtrip).person = "" := by
    rw [cleanRow_person]
    decide
  have hdate : (cleanRow exampleNanPersonRoundtrip).date = none := by
    rw [cleanRow_date]
    decide
  have hblank : is_blank (cleanRow exampleNanPersonRoundtrip) = true :=
    (is_blank_iff _).mpr ⟨hdate, hper, hamt⟩
  rw [clean_payments_data, if_neg (by decide)]
  simp [List.filter, hblank]

/-- Concrete instantiation of `C6_idempotent_on_marker_free` on the spec
§8 example ledger. -/
theorem C6_witness :
    clean_payments_data ((clean_payments_data [exampleSpecRow]).map toCSVRow) =
      clean_payments_data [exampleSpecRow] :=
  C6_idempotent_on_marker_free [exampleSpecRow] (by decide)

/-! ## C8 — the client remaining balance -/

theorem lookup_map_keys (keys : List String) (F : String → ℚ) (n : String) :
    ((keys.map (fun k => (k, F k))).lookup n) =
      if n ∈ keys then some (F n) else none := by
  induction keys with
  | nil => simp
  | cons k t ih =>
    by_cases h : n = k
    · subst h
      simp [List.lookup]
    · have hbeq : (n == k) = false := by simpa using h
      simp [List.lookup, hbeq, ih, h]

/-- `.lookup` into a `groupby().sum()` table, with the `fillna(0)` default:
always the sum over the matching rows (zero when the key is absent). -/
theorem lookup_sum_by (key : α → String) (val : α → ℚ) (xs : List α) (n : String) :
    (((sum_by key val xs).lookup n).getD 0) =
      ((xs.filter (fun x => key x == n)).map val).sum := by
  unfold sum_by
  rw [lookup_map_keys]
  split_ifs with h
  · rfl
  · have hn : ∀ x ∈ xs, ¬(key x == n) = true := by
      intro x hx hc
      apply h
      rw [List.mem_dedup]
      exact List.mem_map.mpr ⟨x, hx, by simpa using hc⟩
    rw [List.filter_eq_nil_iff.mpr hn]
    rfl

/-- One client-expense row: unit amount 5, quantity 2, person `"A"`. -/
def exampleExpense : ExpenseRow where
  original_transaction_ref_num := ""
  expense_date := "2024-03-01"
  expense_person := "A"
  expense_category := "General"
  expense_amount := 5
  expense_quantity := 2
  expense_description := "supplies"

/-- C8: every entry of the client summary reports
`remaining_balance = (sum of i_paid amounts to that client) −
(sum of unit amount × quantity over that client's expense rows)`; and with
no payments at all and one 5 × 2 expense for `"A"` the summary reports the
negative balance −10 — no check prevents expenses from exceeding
payments. -/
theorem C8_remaining_balance :
    (∀ (ps : List CleanRow) (es : List ExpenseRow) (entry : String × ℚ × ℚ × ℚ),
      entry ∈ summary_by_client ps es →
      entry.2.2.2 =
        ((((ps.filter (fun r => pyLower r.type == "i_paid")).filter
            (fun r => r.person == entry.1)).map (fun r => r.amount)).sum) -
        (((es.filter (fun e => e.expense_person == entry.1)).map total_line_amount).sum)) ∧
    summary_by_client [] [exampleExpense] = [("A", 0, 10, -10)] := by
  constructor
  · intro ps es entry hmem
    unfold summary_by_client at hmem
    simp only [List.mem_map] at hmem
    obtain ⟨n, _hn, hentry⟩ := hmem
    subst hentry
    show ((total_paid_to_clients ps).lookup n).getD 0 -
        ((total_spent_by_clients es).lookup n).getD 0 = _
    unfold total_paid_to_clients total_spent_by_clients
    rw [lookup_sum_by (fun r : CleanRow => r.person) (fun r : CleanRow => r.amount)
      (ps.filter (fun r => pyLower r.type == "i_paid")) n,
      lookup_sum_by (fun e : ExpenseRow => e.expense_person) total_line_amount es n]
  · simp only [summary_by_client, total_paid_to_clients, total_spent_by_clients,
      sum_by, total_line_amount, exampleExpense]
    norm_num [total_line_amount]

/-- Concrete instantiation of `C8_remaining_balance`: the reported −10
balance for `"A"` equals the (zero) payments minus the 5 × 2 expense. -/
theorem C8_witness :
    (("A", (0 : ℚ), (10 : ℚ), (-10 : ℚ)) : String × ℚ × ℚ × ℚ).2.2.2 =
      (((([] : List CleanRow).filter (fun r => pyLower r.type == "i_paid")).filter
          (fun r => r.person == "A")).map (fun r => r.amount)).sum -
      ((([exampleExpense] : List ExpenseRow).filter
          (fun e => e.expense_person == "A")).map total_line_amount).sum := by
  apply C8_remaining_balance.1 [] [exampleExpense]
  rw [C8_remaining_balance.2]
  exact List.mem_singleton.mpr rfl

/-! ## C2 — the reference-number requirement on submission -/

/-- C2 (amended): the Add Transaction handler rejects a submission whose
stripped reference number is empty for *every* payment instrument (cash as
well as cheque; lines 1529-1534 differ only in the warning text), and any
rejected submission leaves the ledger unchanged (the append on line 1562
is inside `if validation_passed`). -/
theorem C2_empty_reference_rejected (f : SubmitForm) (refs : List String)
    (ledger : List RawRow) :
    (pyStrip f.reference_number = "" → validate_submission f refs = false) ∧
    (validate_submission f refs = false → add_transaction f refs ledger = ledger) := by
  constructor
  · intro h
    rw [validate_submission, h]
    simp
  · intro h
    rw [add_transaction, h]
    simp

/-- A fully-valid cash submission except for its empty reference number. -/
def exampleCashForm : SubmitForm where
  selected_person := some "Bob"
  amount := 100
  date := ⟨2024, 3, 1⟩
  reference_number := ""
  payment_method := "cash"
  cheque_status := ""
  status := "completed"
  description := ""
  transaction_type := "Paid to Me"

/-- Counterexample to C2 as stated: a cash submission with an empty
reference number — and a selected person, a positive amount and no
duplicate — is *rejected*, not accepted. -/
theorem C2_counterexample :
    exampleCashForm.payment_method = "cash" ∧
      pyStrip exampleCashForm.reference_number = "" ∧
      exampleCashForm.selected_person.isSome = true ∧
      (0 : ℚ) < exampleCashForm.amount ∧
      validate_submission exampleCashForm [] = false := by
  decide

/-- Concrete instantiation of `C2_empty_reference_rejected` on the cash
form: rejected, and a one-row ledger is left unchanged. -/
theorem C2_witness :
    validate_submission exampleCashForm ["r9"] = false ∧
      add_transaction exampleCashForm ["r9"] [exampleCashRow] = [exampleCashRow] := by
  have h1 := (C2_empty_reference_rejected exampleCashForm ["r9"] [exampleCashRow]).1 (by decide)
  exact ⟨h1, (C2_empty_reference_rejected exampleCashForm ["r9"] [exampleCashRow]).2 h1⟩

end Payments
